import Mathlib

/-! Verification of `iiifanno.py` (python-iiif-annotation-tool).

A shallow embedding of the data flow of the script: JSON documents become the
inductive `Json`, Python dict/set behaviour (truthiness, key lookup,
hashability, insertion-ordered updates) is modelled explicitly, and every
fallible source function becomes an `Except Err` computation.  External
I/O (the resource loader of `open_file_or_url` plus `json.load`) is a
function parameter `fetch`, and the unbounded external-reference recursion
is given a fuel parameter whose exhaustion stands for non-termination.
-/

/-- The JSON-like document values produced by the Python `json.load`:
`None`, booleans, numbers (the script never does arithmetic on them, so
integers suffice), strings, lists, and insertion-ordered dicts. -/
inductive Json where
  | null : Json
  | bool (b : Bool) : Json
  | num (n : Int) : Json
  | str (s : String) : Json
  | arr (xs : List Json) : Json
  | obj (kvs : List (String × Json)) : Json

mutual
/-- Structural decidable equality for `Json` (matches Python `==` on
`json.load` output). -/
def decEqJson : (a b : Json) → Decidable (a = b)
  | .null, .null => isTrue rfl
  | .bool a, .bool b =>
    match decEq a b with
    | isTrue h => isTrue (by rw [h])
    | isFalse h => isFalse (fun hh => h (Json.bool.inj hh))
  | .num a, .num b =>
    match decEq a b with
    | isTrue h => isTrue (by rw [h])
    | isFalse h => isFalse (fun hh => h (Json.num.inj hh))
  | .str a, .str b =>
    match decEq a b with
    | isTrue h => isTrue (by rw [h])
    | isFalse h => isFalse (fun hh => h (Json.str.inj hh))
  | .arr xs, .arr ys =>
    match decEqJsonList xs ys with
    | isTrue h => isTrue (by rw [h])
    | isFalse h => isFalse (fun hh => h (Json.arr.inj hh))
  | .obj xs, .obj ys =>
    match decEqJsonObj xs ys with
    | isTrue h => isTrue (by rw [h])
    | isFalse h => isFalse (fun hh => h (Json.obj.inj hh))
  | .null, .bool _ | .null, .num _ | .null, .str _ | .null, .arr _ | .null, .obj _
  | .bool _, .null | .bool _, .num _ | .bool _, .str _ | .bool _, .arr _ | .bool _, .obj _
  | .num _, .null | .num _, .bool _ | .num _, .str _ | .num _, .arr _ | .num _, .obj _
  | .str _, .null | .str _, .bool _ | .str _, .num _ | .str _, .arr _ | .str _, .obj _
  | .arr _, .null | .arr _, .bool _ | .arr _, .num _ | .arr _, .str _ | .arr _, .obj _
  | .obj _, .null | .obj _, .bool _ | .obj _, .num _ | .obj _, .str _ | .obj _, .arr _ =>
    isFalse (by intro h; exact Json.noConfusion h)

def decEqJsonList : (xs ys : List Json) → Decidable (xs = ys)
  | [], [] => isTrue rfl
  | [], _ :: _ => isFalse (by intro h; exact List.noConfusion h)
  | _ :: _, [] => isFalse (by intro h; exact List.noConfusion h)
  | x :: xs, y :: ys =>
    match decEqJson x y, decEqJsonList xs ys with
    | isTrue h1, isTrue h2 => isTrue (by rw [h1, h2])
    | isFalse h1, _ => isFalse (fun hh => h1 (List.cons.inj hh).1)
    | _, isFalse h2 => isFalse (fun hh => h2 (List.cons.inj hh).2)

def decEqJsonObj : (xs ys : List (String × Json)) → Decidable (xs = ys)
  | [], [] => isTrue rfl
  | [], _ :: _ => isFalse (by intro h; exact List.noConfusion h)
  | _ :: _, [] => isFalse (by intro h; exact List.noConfusion h)
  | (k, v) :: xs, (l, w) :: ys =>
    match decEq k l, decEqJson v w, decEqJsonObj xs ys with
    | isTrue h1, isTrue h2, isTrue h3 => isTrue (by rw [h1, h2, h3])
    | isFalse h1, _, _ =>
      isFalse (fun hh => h1 (congrArg Prod.fst (List.cons.inj hh).1))
    | _, isFalse h2, _ =>
      isFalse (fun hh => h2 (congrArg Prod.snd (List.cons.inj hh).1))
    | _, _, isFalse h3 => isFalse (fun hh => h3 (List.cons.inj hh).2)
end

instance : DecidableEq Json := decEqJson

/-- Python truthiness (the test `if not x`) for JSON values: `None`, `False`, `0`,
`""`, `[]` and `{}` are falsy. -/
def truthy : Json → Bool
  | .null => false
  | .bool b => b
  | .num n => n != 0
  | .str s => s != ""
  | .arr xs => !xs.isEmpty
  | .obj kvs => !kvs.isEmpty

/-- Truthiness of a `dict.get` result: a missing key yields `None`, falsy. -/
def truthyOpt : Option Json → Bool
  | none => false
  | some j => truthy j

/-- First-match association lookup, modelling `dict.get(key, None)` on the
(unique-key) dicts produced by `json.load`. -/
def olookup : List (String × Json) → String → Option Json
  | [], _ => none
  | (k, v) :: rest, key => if k = key then some v else olookup rest key

/-- Membership test `key in dict`. -/
def hasKey (kvs : List (String × Json)) (key : String) : Bool :=
  (olookup kvs key).isSome

/-- Python hashability of a JSON value: lists and dicts are unhashable and
raise `TypeError` when used as dict keys or set elements. -/
def hashable : Json → Bool
  | .arr _ => false
  | .obj _ => false
  | _ => true

/-- Model of `s.partition(c)[0]` at the hash character: the prefix of `s`
before the first hash (the whole string when there is none). -/
def partitionPre (s : String) : String :=
  String.mk (s.toList.takeWhile (fun c => c ≠ '#'))

/-- Model of the Python string split at the slash character, on a
character list (Python semantics: always at least
one segment, adjacent separators give empty segments). -/
def splitSlash : List Char → List (List Char)
  | [] => [[]]
  | c :: rest =>
    match splitSlash rest with
    | [] => [[]]
    | seg :: segs => if c = '/' then [] :: seg :: segs else (c :: seg) :: segs

/-- Model of `canvas_id.split(slash)[-1]`: the last slash-separated segment. -/
def lastSeg (s : String) : String :=
  String.mk ((splitSlash s.toList).getLastD [])

/-- Single-quoted string literal with backslash and quote escapes
(the common case of the Python string `repr`). -/
def pyReprStr (s : String) : String :=
  "\x27" ++ String.join (s.toList.map fun c =>
    if c = '\\' then "\\\\" else if c = '\'' then "\\\x27" else String.mk [c]) ++ "\x27"

mutual
/-- Model of the Python `repr` on `json.load` output, as used by
`get_string`: `None`/`True`/`False`, decimal numbers, single-quoted
strings (backslash and quote escaped), `[a, b]` lists and
brace-enclosed `key: value` dicts. -/
def pyRepr : Json → String
  | .null => "None"
  | .bool b => if b then "True" else "False"
  | .num n => toString n
  | .str s => pyReprStr s
  | .arr xs => "[" ++ pyReprList xs ++ "]"
  | .obj kvs => "\x7b" ++ pyReprObj kvs ++ "\x7d"

def pyReprList : List Json → String
  | [] => ""
  | [x] => pyRepr x
  | x :: xs => pyRepr x ++ ", " ++ pyReprList xs

def pyReprObj : List (String × Json) → String
  | [] => ""
  | [(k, v)] => pyReprStr k ++ ": " ++ pyRepr v
  | (k, v) :: kvs => pyReprStr k ++ ": " ++ pyRepr v ++ ", " ++ pyReprObj kvs
end


/-- The distinct Python exceptions the script can raise: the built-in
`AttributeError` (`.get`/`.split` on a non-dict/non-str), `TypeError`
(unhashable dict key or set element, bad `+` concatenation, iterating a
dict where a list is expected), `KeyError` (a missing manifest-info id),
the loader/decoder failures of `open_file_or_url`/`json.load`, fuel
exhaustion (standing for the unbounded external-reference recursion), and
one constructor per `raise ValueError(...)` site of `iiifanno.py`, with
the id interpolated into the message as payload. -/
inductive Err where
  | attrErr : Err
  | typeErr : Err
  | keyErr : Err
  | fetchErr : Err
  | fuelErr : Err
  | unknownAnnoType : Err
  | annoMissingId : Err
  | annoMissingTarget (id : Json) : Err
  | targetNoIdFull (id : Json) : Err
  | targetNoIdSource (id : Json) : Err
  | targetNotStrDict (id : Json) : Err
  | listMissingId (v : Nat) : Err
  | listWrongType (v : Nat) (id : Json) : Err
  | listNoItems (v : Nat) : Err
  | manifWrongType (v : Nat) : Err
  | manifMissingId (v : Nat) : Err
  | manifMissingLabel (v : Nat) : Err
  | manifNoCanvasList (v : Nat) : Err
  | seqWrongType : Err
  | seqNoCanvases : Err
  | canvasMissingId (v : Nat) : Err
  | canvasWrongType (v : Nat) (id : Json) : Err
  | canvasMissingLabel (v : Nat) (id : Json) : Err
  | canvasNoImages (v : Nat) (id : Json) : Err
  | unsupportedSchema : Err
deriving DecidableEq

/-- Model of `x.get(key, None)`: Python raises `AttributeError` when `x`
is not a dict. -/
def asObj : Json → Except Err (List (String × Json))
  | .obj kvs => .ok kvs
  | _ => .error .attrErr

/-- The normalized view of one annotation: the `annotation_info` dict
built by `parse_annotation_v2`/`parse_annotation_v3`, with keys `version`,
`id`, `target`, `motivation` (`none` = Python `None`) and `annotation`
(the field `raw` here: the original document value). -/
structure AnnoInfo where
  version : Nat
  id : Json
  target : Json
  motivation : Option Json
  raw : Json
deriving DecidableEq

/-- Source `get_string(val)`: `val` if it is a string, `val[0]` if it is a
one-element list (whatever that element is), `repr(val)` otherwise. -/
def get_string (val : Json) : Json :=
  match val with
  | .str s => .str s
  | .arr [x] => x
  | v => .str (pyRepr v)

/-- Source `parse_annotation_v2(anno)`: id from `@id` (truthiness-checked),
target from `on` (truthiness-checked, then string/dict normalization with
`full` as the object fallback), optional motivation via `get_string`. -/
def parse_annotation_v2 (anno : Json) : Except Err AnnoInfo := do
  let kvs ← asObj anno
  let anno_id := olookup kvs "@id"
  if ¬ truthyOpt anno_id then throw .annoMissingId
  let aid := anno_id.getD .null
  let anno_target := olookup kvs "on"
  if ¬ truthyOpt anno_target then throw (.annoMissingTarget aid)
  let target_uri ← (match anno_target with
    | some (.str s) => pure (Json.str (partitionPre s))
    | some (.obj tkvs) =>
      match olookup tkvs "id" with
      | some v => pure v
      | none =>
        match olookup tkvs "full" with
        | some v => pure v
        | none => throw (Err.targetNoIdFull aid)
    | _ => throw (Err.targetNotStrDict aid))
  let motivation :=
    if hasKey kvs "motivation" then
      some (get_string ((olookup kvs "motivation").getD .null))
    else none
  return ⟨2, aid, target_uri, motivation, anno⟩

/-- Source `parse_annotation_v3(anno)`: as v2 with `id`/`target`/`source` in
place of `@id`/`on`/`full`. -/
def parse_annotation_v3 (anno : Json) : Except Err AnnoInfo := do
  let kvs ← asObj anno
  let anno_id := olookup kvs "id"
  if ¬ truthyOpt anno_id then throw .annoMissingId
  let aid := anno_id.getD .null
  let anno_target := olookup kvs "target"
  if ¬ truthyOpt anno_target then throw (.annoMissingTarget aid)
  let target_uri ← (match anno_target with
    | some (.str s) => pure (Json.str (partitionPre s))
    | some (.obj tkvs) =>
      match olookup tkvs "id" with
      | some v => pure v
      | none =>
        match olookup tkvs "source" with
        | some v => pure v
        | none => throw (Err.targetNoIdSource aid)
    | _ => throw (Err.targetNotStrDict aid))
  let motivation :=
    if hasKey kvs "motivation" then
      some (get_string ((olookup kvs "motivation").getD .null))
    else none
  return ⟨3, aid, target_uri, motivation, anno⟩

/-- Source `parse_annotation(anno)` (renamed here, the source name ends in
a reserved token): dispatch on a `type` equal to `Annotation` (v3), then
an `@type` equal to `oa:Annotation` (v2). -/
def parse_anno (anno : Json) : Except Err AnnoInfo := do
  let kvs ← asObj anno
  if olookup kvs "type" = some (.str "Annotation") then
    parse_annotation_v3 anno
  else if olookup kvs "@type" = some (.str "oa:Annotation") then
    parse_annotation_v2 anno
  else
    throw .unknownAnnoType

/-- A value of the `by_target` dict as `put_add` can leave it: either a
bare `annotation_info` (the `single_item_list=False` branch, unused by
this script but part of the `put_add` contract) or a list of them. -/
inductive PutVal where
  | one (v : AnnoInfo) : PutVal
  | list (l : List AnnoInfo) : PutVal
deriving DecidableEq

/-- The records a `PutVal` holds. -/
def pvList : PutVal → List AnnoInfo
  | .one v => [v]
  | .list l => l

/-- Pure core of `put_add` (arguments item, key, val, single) on the
insertion-ordered dict: a new key is appended at the end with `[val]`
(or bare `val` when `single_item_list` is false), an existing list value
is appended to in place, any other existing value becomes
`[oldval, val]`. -/
def put_add_core : List (Json × PutVal) → Json → AnnoInfo → Bool →
    List (Json × PutVal)
  | [], key, val, single =>
    if single then [(key, .list [val])] else [(key, .one val)]
  | (k, v) :: rest, key, val, single =>
    if k = key then
      match v with
      | .list l => (k, .list (l ++ [val])) :: rest
      | .one w => (k, .list [w, val]) :: rest
    else (k, v) :: put_add_core rest key val single

/-- Source `put_add`; the `item.get(key)` call raises `TypeError` first
when `key` is unhashable. -/
def put_add (item : List (Json × PutVal)) (key : Json) (val : AnnoInfo)
    (single : Bool) : Except Err (List (Json × PutVal)) :=
  if hashable key then .ok (put_add_core item key val single) else .error .typeErr

/-- Model of `motivations.add(m)` on the set of motivation values, modelled as
a duplicate-free insertion-ordered list; Python raises `TypeError` when
the element is unhashable (a list or dict motivation). -/
def set_add_mot (s : List (Option Json)) (m : Option Json) :
    Except Err (List (Option Json)) :=
  match m with
  | some j => if hashable j then .ok (if m ∈ s then s else s ++ [m]) else .error .typeErr
  | none => .ok (if m ∈ s then s else s ++ [m])

/-- Model of `canvas_ids.add(cid)` on a set of JSON values. -/
def set_add_id (s : List Json) (cid : Json) : Except Err (List Json) :=
  if hashable cid then .ok (if cid ∈ s then s else s ++ [cid]) else .error .typeErr

/-- The `annotation_info` accumulator dict: keys `annotations` (document
order), `by_target` (insertion-ordered dict) and `motivations` (set). -/
structure AIndex where
  annotations : List AnnoInfo
  by_target : List (Json × PutVal)
  motivations : List (Option Json)
deriving DecidableEq

/-- The fresh accumulator created when the `annotation_info` argument is
`None`. -/
def AIndex.empty : AIndex := ⟨[], [], []⟩

/-- The per-annotation loop body shared by both container
parsers: parse the annotation, append it to `annotations`, bucket it into
`by_target` under its target, add its motivation to `motivations`. -/
def parse_annos_fold : List Json → AIndex → Except Err AIndex
  | [], a => .ok a
  | anno :: rest, a => do
    let ai ← parse_anno anno
    let bt ← put_add a.by_target ai.target ai true
    let mv ← set_add_mot a.motivations ai.motivation
    parse_annos_fold rest ⟨a.annotations ++ [ai], bt, mv⟩

/-- Source `parse_annotationlist_v2(annolist, annotation_info)`: requires
a truthy `@id` and an `@type` equal to `sc:AnnotationList`; without a `resources` key the
document at `@id` is fetched and parsed recursively (one fuel unit per
hop; `fetch` is `open_file_or_url` + `json.load`); otherwise `resources`
must be a list and each element is parsed into the accumulator. -/
def parse_annotationlist_v2 (fetch : String → Option Json) :
    Nat → Json → Option AIndex → Except Err AIndex
  | fuel, annolist, ainfo => do
    let a := ainfo.getD AIndex.empty
    let kvs ← asObj annolist
    let annolist_id := olookup kvs "@id"
    if ¬ truthyOpt annolist_id then throw (.listMissingId 2)
    let aid := annolist_id.getD .null
    if olookup kvs "@type" ≠ some (.str "sc:AnnotationList") then
      throw (.listWrongType 2 aid)
    if ¬ hasKey kvs "resources" then
      match fuel with
      | 0 => throw .fuelErr
      | fuel' + 1 =>
        match aid with
        | .str url =>
          match fetch url with
          | some doc => parse_annotationlist_v2 fetch fuel' doc (some a)
          | none => throw .fetchErr
        | _ => throw .attrErr
    else
      match olookup kvs "resources" with
      | some (.arr items) => parse_annos_fold items a
      | _ => throw (.listNoItems 2)

/-- Source `parse_annotationlist_v3(annolist, annotation_info)`: as v2
with `id`, a `type` equal to `AnnotationPage`, and `items`. -/
def parse_annotationlist_v3 (fetch : String → Option Json) :
    Nat → Json → Option AIndex → Except Err AIndex
  | fuel, annolist, ainfo => do
    let a := ainfo.getD AIndex.empty
    let kvs ← asObj annolist
    let annolist_id := olookup kvs "id"
    if ¬ truthyOpt annolist_id then throw (.listMissingId 3)
    let aid := annolist_id.getD .null
    if olookup kvs "type" ≠ some (.str "AnnotationPage") then
      throw (.listWrongType 3 aid)
    if ¬ hasKey kvs "items" then
      match fuel with
      | 0 => throw .fuelErr
      | fuel' + 1 =>
        match aid with
        | .str url =>
          match fetch url with
          | some doc => parse_annotationlist_v3 fetch fuel' doc (some a)
          | none => throw .fetchErr
        | _ => throw .attrErr
    else
      match olookup kvs "items" with
      | some (.arr items) => parse_annos_fold items a
      | _ => throw (.listNoItems 3)

/-- The `manifest_info` dict: created by `parse_manifest` with only the
`annotations` and `manifest` keys; the remaining keys may be absent
(`none`). -/
structure MInfo where
  annotations : AIndex
  manifest : Json
  version : Option Nat
  id : Option Json
  label : Option Json
  canvas_ids : List Json
deriving DecidableEq

/-- The fresh `manifest_info` made by `parse_manifest` when passed
`None`: only the empty accumulator and the manifest document. -/
def MInfo.fresh (manif : Json) : MInfo :=
  ⟨AIndex.empty, manif, none, none, none, []⟩

/-- Model of the manifest-info id read: `KeyError` when the key was never set. -/
def getMId (minfo : MInfo) : Except Err Json :=
  match minfo.id with
  | some v => .ok v
  | none => .error .keyErr

/-- The options dict assembled from the command line: the mode, the
reference mode, the URL prefix option (`none` = `None`) and the
annolist naming scheme. -/
structure Opts where
  mode : String
  reference_mode : String
  urlPfx : Option String
  scheme : String

/-- Source `create_annotationlist_v2(manifest_info, annolist_id,
annotation_infos, add_context)`: the v2 container with `resources` the
original `annotation` payloads of the records, in order. -/
def create_annotationlist_v2 (minfo : MInfo) (annolist_id : String)
    (annos : List AnnoInfo) (add_context : Bool) : Except Err Json := do
  let mid ← getMId minfo
  let base := [("@type", Json.str "sc:AnnotationList"),
    ("@id", Json.str annolist_id), ("within", mid)]
  let base := if add_context then
      base ++ [("@context",
        Json.str "http://iiif.io/api/presentation/2/context.json")]
    else base
  pure (Json.obj (base ++ [("resources", Json.arr (annos.map (·.raw)))]))

/-- Source `create_annotationlist_v3`: the v3 container with `items` the
original `annotation` payloads of the records, in order. -/
def create_annotationlist_v3 (minfo : MInfo) (annolist_id : String)
    (annos : List AnnoInfo) (add_context : Bool) : Except Err Json := do
  let mid ← getMId minfo
  let base := [("type", Json.str "AnnotationPage"),
    ("id", Json.str annolist_id), ("partOf", mid)]
  let base := if add_context then
      base ++ [("@context",
        Json.str "http://iiif.io/api/presentation/3/context.json")]
    else base
  pure (Json.obj (base ++ [("items", Json.arr (annos.map (·.raw)))]))

/-- Model of the URI concatenation of prefix, slash and filename:
`TypeError` when the prefix is not a string. -/
def concatUri (pfx : Json) (fn : String) : Except Err String :=
  match pfx with
  | .str p => .ok (p ++ "/" ++ fn)
  | _ => .error .typeErr

/-- Prefix resolution of `create_annotationlist_id`: the configured URL
prefix when truthy, the manifest-info id otherwise. -/
def resolve_pfx (minfo : MInfo) (opts : Opts) : Except Err Json :=
  match opts.urlPfx with
  | some s => if s = "" then getMId minfo else pure (Json.str s)
  | none => getMId minfo

/-- Source `create_annotationlist_id(manifest_info, canvas_id,
annolist_idx, opts)`: prefix is the configured URL prefix or, when that
is falsy, the own id of the manifest; the canvas scheme uses the last
path segment of the canvas id plus `-annolist.json`, any other scheme
(the default sequence scheme) uses `annolist-` plus the index plus
`.json`. -/
def create_annotationlist_id (minfo : MInfo) (canvas_id : Json)
    (annolist_idx : Nat) (opts : Opts) : Except Err (String × String) := do
  let pfx ← resolve_pfx minfo opts
  if opts.scheme = "canvas" then
    match canvas_id with
    | .str cs =>
      let fn := lastSeg cs ++ "-annolist.json"
      let uri ← concatUri pfx fn
      pure (uri, fn)
    | _ => throw .attrErr
  else
    let fn := "annolist-" ++ toString annolist_idx ++ ".json"
    let uri ← concatUri pfx fn
    pure (uri, fn)

/-- Insertion-ordered dict assignment of `v` at `key`: an existing key keeps
its position, a new key is appended at the end. -/
def objSetKvs : List (String × Json) → String → Json → List (String × Json)
  | [], key, v => [(key, v)]
  | (k, w) :: rest, key, v =>
    if k = key then (key, v) :: rest else (k, w) :: objSetKvs rest key v

/-- First-match lookup in the by-target dict. -/
def btGet (bt : List (Json × PutVal)) (key : Json) : Option PutVal :=
  match bt with
  | [] => none
  | (k, v) :: rest => if k = key then some v else btGet rest key

/-- Model of the by-target dict lookup with `.get(canvas_id, None)`:
`TypeError` first when the key is unhashable. -/
def dict_get (bt : List (Json × PutVal)) (key : Json) :
    Except Err (Option PutVal) :=
  if hashable key then .ok (btGet bt key) else .error .typeErr

/-- The mutable traversal state of the two manifest parsers: the shared
`annotation_info` accumulator, the local `canvas_ids` set and
`annolist_idx` counter, plus the trace of `save_json(annolist,
annolist_fn, opts)` calls as `(filename, document)` pairs. -/
structure TravSt where
  ainfo : AIndex
  canvas_ids : List Json
  annolist_idx : Nat
  saved : List (String × Json)
deriving DecidableEq

/-- The per-annolist loop of v2 read mode. -/
def parse_annolists_v2 (fetch : String → Option Json) (fuel : Nat) :
    List Json → AIndex → Except Err AIndex
  | [], a => .ok a
  | al :: rest, a => do
    let a' ← parse_annotationlist_v2 fetch fuel al (some a)
    parse_annolists_v2 fetch fuel rest a'

/-- The per-annolist loop of v3 read mode. -/
def parse_annolists_v3 (fetch : String → Option Json) (fuel : Nat) :
    List Json → AIndex → Except Err AIndex
  | [], a => .ok a
  | al :: rest, a => do
    let a' ← parse_annotationlist_v3 fetch fuel al (some a)
    parse_annolists_v3 fetch fuel rest a'

/-- One iteration of the v2 canvases loop: validation,
then the read-mode or insert-mode body.  Returns the (possibly updated)
canvas and traversal state.  In insert mode, a bare (non-list)
`by_target` value would make the list comprehension inside
`create_annotationlist_v2` iterate a dict and raise `TypeError`; that
check is hoisted before the call. -/
def process_canvas_v2 (fetch : String → Option Json) (fuel : Nat)
    (opts : Opts) (minfo : MInfo) (st : TravSt) (canvas : Json) :
    Except Err (Json × TravSt) := do
  let kvs ← asObj canvas
  let canvas_id := olookup kvs "@id"
  if ¬ truthyOpt canvas_id then throw (.canvasMissingId 2)
  let cid := canvas_id.getD .null
  if olookup kvs "@type" ≠ some (.str "sc:Canvas") then
    throw (.canvasWrongType 2 cid)
  if ¬ truthyOpt (olookup kvs "label") then throw (.canvasMissingLabel 2 cid)
  match olookup kvs "images" with
  | some (.arr _) => do
    let canvas_annos := olookup kvs "otherContent"
    if opts.mode = "read" then do
      let cids ← set_add_id st.canvas_ids cid
      match canvas_annos with
      | some (.arr annolists) => do
        let a ← parse_annolists_v2 fetch fuel annolists st.ainfo
        pure (canvas, ⟨a, cids, st.annolist_idx, st.saved⟩)
      | _ => pure (canvas, ⟨st.ainfo, cids, st.annolist_idx, st.saved⟩)
    else if opts.mode = "insert" then do
      match ← dict_get minfo.annotations.by_target cid with
      | none => pure (canvas, st)
      | some pv => do
        let idx' := st.annolist_idx + 1
        let ids ← create_annotationlist_id minfo cid idx' opts
        let annos ← (match pv with
          | .list l => pure l
          | .one _ => throw Err.typeErr)
        if opts.reference_mode = "inline" then do
          let annolist ← create_annotationlist_v2 minfo ids.1 annos false
          pure (Json.obj (objSetKvs kvs "otherContent" (.arr [annolist])),
            ⟨st.ainfo, st.canvas_ids, idx', st.saved⟩)
        else do
          let annolist ← create_annotationlist_v2 minfo ids.1 annos true
          pure (Json.obj (objSetKvs kvs "otherContent"
              (.arr [Json.obj [("@id", .str ids.1),
                ("@type", .str "sc:AnnotationList")]])),
            ⟨st.ainfo, st.canvas_ids, idx', st.saved ++ [(ids.2, annolist)]⟩)
    else pure (canvas, st)
  | _ => throw (.canvasNoImages 2 cid)

/-- One iteration of the v3 canvases loop; note the
source adds the canvas id to `canvas_ids` once before the mode branch and
(in read mode) once more inside it. -/
def process_canvas_v3 (fetch : String → Option Json) (fuel : Nat)
    (opts : Opts) (minfo : MInfo) (st : TravSt) (canvas : Json) :
    Except Err (Json × TravSt) := do
  let kvs ← asObj canvas
  let canvas_id := olookup kvs "id"
  if ¬ truthyOpt canvas_id then throw (.canvasMissingId 3)
  let cid := canvas_id.getD .null
  if olookup kvs "type" ≠ some (.str "Canvas") then
    throw (.canvasWrongType 3 cid)
  if ¬ truthyOpt (olookup kvs "label") then throw (.canvasMissingLabel 3 cid)
  match olookup kvs "items" with
  | some (.arr _) => do
    let cids0 ← set_add_id st.canvas_ids cid
    let canvas_annos := olookup kvs "annotations"
    if opts.mode = "read" then do
      let cids ← set_add_id cids0 cid
      match canvas_annos with
      | some (.arr annolists) => do
        let a ← parse_annolists_v3 fetch fuel annolists st.ainfo
        pure (canvas, ⟨a, cids, st.annolist_idx, st.saved⟩)
      | _ => pure (canvas, ⟨st.ainfo, cids, st.annolist_idx, st.saved⟩)
    else if opts.mode = "insert" then do
      let st := { st with canvas_ids := cids0 }
      match ← dict_get minfo.annotations.by_target cid with
      | none => pure (canvas, st)
      | some pv => do
        let idx' := st.annolist_idx + 1
        let ids ← create_annotationlist_id minfo cid idx' opts
        let annos ← (match pv with
          | .list l => pure l
          | .one _ => throw Err.typeErr)
        if opts.reference_mode = "inline" then do
          let annolist ← create_annotationlist_v3 minfo ids.1 annos false
          pure (Json.obj (objSetKvs kvs "annotations" (.arr [annolist])),
            ⟨st.ainfo, st.canvas_ids, idx', st.saved⟩)
        else do
          let annolist ← create_annotationlist_v3 minfo ids.1 annos true
          pure (Json.obj (objSetKvs kvs "annotations"
              (.arr [Json.obj [("id", .str ids.1),
                ("type", .str "AnnotationPage")]])),
            ⟨st.ainfo, st.canvas_ids, idx', st.saved ++ [(ids.2, annolist)]⟩)
    else pure (canvas, { st with canvas_ids := cids0 })
  | _ => throw (.canvasNoImages 3 cid)

/-- The v2 canvases loop, threading the traversal state left to right. -/
def process_canvases_v2 (fetch : String → Option Json) (fuel : Nat)
    (opts : Opts) (minfo : MInfo) :
    List Json → TravSt → Except Err (List Json × TravSt)
  | [], st => .ok ([], st)
  | c :: cs, st => do
    let (c', st') ← process_canvas_v2 fetch fuel opts minfo st c
    let (cs', st'') ← process_canvases_v2 fetch fuel opts minfo cs st'
    pure (c' :: cs', st'')

/-- The v3 canvases loop. -/
def process_canvases_v3 (fetch : String → Option Json) (fuel : Nat)
    (opts : Opts) (minfo : MInfo) :
    List Json → TravSt → Except Err (List Json × TravSt)
  | [], st => .ok ([], st)
  | c :: cs, st => do
    let (c', st') ← process_canvas_v3 fetch fuel opts minfo st c
    let (cs', st'') ← process_canvases_v3 fetch fuel opts minfo cs st'
    pure (c' :: cs', st'')

/-- One iteration of the v2 sequences loop:
`@type` must be `sc:Sequence` and `canvases` a non-empty list. -/
def process_seq_v2 (fetch : String → Option Json) (fuel : Nat)
    (opts : Opts) (minfo : MInfo) (st : TravSt) (seq : Json) :
    Except Err (Json × TravSt) := do
  let kvs ← asObj seq
  if olookup kvs "@type" ≠ some (.str "sc:Sequence") then throw .seqWrongType
  match olookup kvs "canvases" with
  | some (.arr (c :: cs)) => do
    let (cs', st') ← process_canvases_v2 fetch fuel opts minfo (c :: cs) st
    pure (Json.obj (objSetKvs kvs "canvases" (.arr cs')), st')
  | _ => throw .seqNoCanvases

/-- The v2 sequences loop. -/
def process_seqs_v2 (fetch : String → Option Json) (fuel : Nat)
    (opts : Opts) (minfo : MInfo) :
    List Json → TravSt → Except Err (List Json × TravSt)
  | [], st => .ok ([], st)
  | s :: ss, st => do
    let (s', st') ← process_seq_v2 fetch fuel opts minfo st s
    let (ss', st'') ← process_seqs_v2 fetch fuel opts minfo ss st'
    pure (s' :: ss', st'')

/-- Source `parse_manifest_v2(manif, manifest_info, opts)`.  The result pairs
the returned `manifest_info` with the trace of `save_json` calls made
during insertion.  Read mode updates the existing dict in place (the
`manifest` key keeps its old value); insert mode re-stamps the
the manifest `@id` with the manifest-info id and stores the updated
document under `manifest`. -/
def parse_manifest_v2 (fetch : String → Option Json) (fuel : Nat)
    (manif : Json) (minfo : MInfo) (opts : Opts) :
    Except Err (MInfo × List (String × Json)) := do
  let kvs ← asObj manif
  if olookup kvs "@type" ≠ some (.str "sc:Manifest") then
    throw (.manifWrongType 2)
  let manif_id := olookup kvs "@id"
  if ¬ truthyOpt manif_id then throw (.manifMissingId 2)
  let mid := manif_id.getD .null
  let manif_label := olookup kvs "label"
  if ¬ truthyOpt manif_label then throw (.manifMissingLabel 2)
  let mlabel := manif_label.getD .null
  match olookup kvs "sequences" with
  | some (.arr (s :: ss)) => do
    let (seqs', st') ← process_seqs_v2 fetch fuel opts minfo (s :: ss)
      ⟨minfo.annotations, [], 0, []⟩
    let base := { minfo with annotations := st'.ainfo }
    if opts.mode = "read" then
      pure ({ base with
          version := some 2
          id := some mid
          label := some mlabel
          canvas_ids := st'.canvas_ids }, st'.saved)
    else if opts.mode = "insert" then do
      let infoid ← getMId minfo
      let manif' := Json.obj
        (objSetKvs (objSetKvs kvs "sequences" (.arr seqs')) "@id" infoid)
      pure ({ base with manifest := manif' }, st'.saved)
    else pure (base, st'.saved)
  | _ => throw (.manifNoCanvasList 2)

/-- Source `parse_manifest_v3(manif, manifest_info, opts)`: `items` need only
be a list (it may be empty); read mode rebuilds `manifest_info` as a
fresh dict whose `manifest` key is the input document. -/
def parse_manifest_v3 (fetch : String → Option Json) (fuel : Nat)
    (manif : Json) (minfo : MInfo) (opts : Opts) :
    Except Err (MInfo × List (String × Json)) := do
  let kvs ← asObj manif
  if olookup kvs "type" ≠ some (.str "Manifest") then
    throw (.manifWrongType 3)
  let manif_id := olookup kvs "id"
  if ¬ truthyOpt manif_id then throw (.manifMissingId 3)
  let mid := manif_id.getD .null
  let manif_label := olookup kvs "label"
  if ¬ truthyOpt manif_label then throw (.manifMissingLabel 3)
  let mlabel := manif_label.getD .null
  match olookup kvs "items" with
  | some (.arr canvases) => do
    let (canvases', st') ← process_canvases_v3 fetch fuel opts minfo canvases
      ⟨minfo.annotations, [], 0, []⟩
    if opts.mode = "read" then
      pure (⟨st'.ainfo, manif, some 3, some mid, some mlabel,
        st'.canvas_ids⟩, st'.saved)
    else if opts.mode = "insert" then do
      let infoid ← getMId minfo
      let manif' := Json.obj
        (objSetKvs (objSetKvs kvs "items" (.arr canvases')) "id" infoid)
      pure ({ minfo with annotations := st'.ainfo, manifest := manif' },
        st'.saved)
    else pure ({ minfo with annotations := st'.ainfo }, st'.saved)
  | _ => throw (.manifNoCanvasList 3)

/-- Source `parse_manifest(manif, manifest_info, opts)`: create the fresh
`manifest_info` when given `None`, then dispatch solely on the
`@context` value; an unrecognized context raises. -/
def parse_manifest (fetch : String → Option Json) (fuel : Nat)
    (manif : Json) (minfo? : Option MInfo) (opts : Opts) :
    Except Err (MInfo × List (String × Json)) := do
  let minfo := match minfo? with
    | some m => m
    | none => MInfo.fresh manif
  let kvs ← asObj manif
  if olookup kvs "@context" =
      some (.str "http://iiif.io/api/presentation/3/context.json") then
    parse_manifest_v3 fetch fuel manif minfo opts
  else if olookup kvs "@context" =
      some (.str "http://iiif.io/api/presentation/2/context.json") then
    parse_manifest_v2 fetch fuel manif minfo opts
  else
    throw .unsupportedSchema

/-- A small v2 annotation document used by the concrete examples and
witnesses below. -/
def exAnno2 : Json :=
  .obj [("@id", .str "a"), ("@type", .str "oa:Annotation"),
    ("on", .str "http://ex/c1#f")]

/-- The record `parse_annotation_v2` produces for `exAnno2`. -/
def exRec2 : AnnoInfo := ⟨2, .str "a", .str "http://ex/c1", none, exAnno2⟩

/-- A v2 annotation list holding `exAnno2`. -/
def exList2 : Json :=
  .obj [("@id", .str "http://ex/list1"), ("@type", .str "sc:AnnotationList"),
    ("resources", .arr [exAnno2])]

/-- A v2 canvas with one annotation list. -/
def exCanvas2 : Json :=
  .obj [("@id", .str "http://ex/c1"), ("@type", .str "sc:Canvas"),
    ("label", .str "p1"), ("images", .arr []),
    ("otherContent", .arr [exList2])]

/-- A v2 sequence with one canvas. -/
def exSeq2 : Json :=
  .obj [("@type", .str "sc:Sequence"), ("canvases", .arr [exCanvas2])]

/-- A complete small v2 manifest. -/
def exManif2 : Json :=
  .obj [("@context", .str "http://iiif.io/api/presentation/2/context.json"),
    ("@id", .str "http://ex/man"), ("@type", .str "sc:Manifest"),
    ("label", .str "M"), ("sequences", .arr [exSeq2])]

/-- Read-mode options with the default reference mode and naming scheme. -/
def optsRead : Opts := ⟨"read", "reference", none, "sequence"⟩

/-- Insert-mode options with the default reference mode and naming scheme. -/
def optsInsert : Opts := ⟨"insert", "reference", none, "sequence"⟩

/-- A resource loader that always fails (no external references are
resolved in the concrete examples). -/
def noFetch : String → Option Json := fun _ => none

/-- The index built from `exAnno2` (note the `None` element the source
adds to `motivations` for an absent motivation field). -/
def exIdx : AIndex :=
  ⟨[exRec2], [(.str "http://ex/c1", .list [exRec2])], [none]⟩

/-- A v3 canvas without annotations. -/
def exCanvas3 : Json :=
  .obj [("id", .str "http://ex/c1"), ("type", .str "Canvas"),
    ("label", .str "p1"), ("items", .arr [])]

/-- A small v3 manifest with one canvas. -/
def exManif3 : Json :=
  .obj [("@context", .str "http://iiif.io/api/presentation/3/context.json"),
    ("id", .str "http://ex/man"), ("type", .str "Manifest"),
    ("label", .str "M"), ("items", .arr [exCanvas3])]

/-- A manifest info prepared for insertion into `exManif3` (as
`action_insert` prepares it: the id re-pointed at the new location, the
annotations taken from a parsed container). -/
def exMinfo3 : MInfo :=
  ⟨exIdx, exManif3, some 3, some (.str "http://ex/newman"),
    some (.str "M"), []⟩

/-- A v2 annotation whose target is an empty (falsy) object. -/
def emptyTargetAnno : Json :=
  .obj [("@id", .str "a"), ("@type", .str "oa:Annotation"), ("on", .obj [])]

/-- A v3-shaped manifest without any JSON-LD context. -/
def noCtxManif : Json :=
  .obj [("type", .str "Manifest"), ("id", .str "http://ex/man"),
    ("label", .str "M"), ("items", .arr [])]

/-- A v2 annotation whose motivation is a one-element list holding a
nested list. -/
def nestedMotAnno : Json :=
  .obj [("@id", .str "a"), ("@type", .str "oa:Annotation"),
    ("on", .str "http://ex/c1"),
    ("motivation", .arr [.arr [.str "a", .str "b"]])]

/-- Specification predicate (for C7): the motivations set holds exactly
the motivation values of the records, including the `None` of records
whose motivation field was absent. -/
def MotInv (a : AIndex) : Prop :=
  ∀ m, m ∈ a.motivations ↔ ∃ r ∈ a.annotations, r.motivation = m

/-- Concatenation of the records of all by-target buckets, in bucket
order. -/
def btJoin : List (Json × PutVal) → List AnnoInfo
  | [] => []
  | kv :: rest => pvList kv.2 ++ btJoin rest

/-- Specification predicate (for C2): the structural invariant the
container parsers maintain on the accumulator: the records are a
permutation of the bucket contents, every bucket is homogeneous in its
key, the bucket keys are distinct, and every bucket value is a list. -/
def InvA (a : AIndex) : Prop :=
  a.annotations.Perm (btJoin a.by_target) ∧
  (∀ kv ∈ a.by_target, ∀ r ∈ pvList kv.2, r.target = kv.1) ∧
  (a.by_target.map Prod.fst).Nodup ∧
  (∀ kv ∈ a.by_target, ∃ l, kv.2 = PutVal.list l)

/-- Hashability of a possibly-absent motivation value. -/
def hashableOpt : Option Json → Bool
  | none => true
  | some j => hashable j

/-- Specification predicate (for C1): the document parses as an
annotation whose target is a usable dict key and whose motivation is a
usable set element — exactly what re-parsing a serialized record needs. -/
def reparses (j : Json) : Bool :=
  match parse_anno j with
  | .ok r => hashable r.target && hashableOpt r.motivation
  | .error _ => false

/-- Specification function (for C9): the expected sequence-scheme
filenames `annolist-(start+1).json`, ..., `annolist-(start+n).json`. -/
def annolistNames (start : Nat) : Nat → List String
  | 0 => []
  | n + 1 =>
    ("annolist-" ++ toString (start + 1) ++ ".json") ::
      annolistNames (start + 1) n

/-- Specification predicate (for C9): the files saved while the counter
ran from `start` to `stop` are consecutively numbered sequence-scheme
container files. -/
def SavedNames (start : Nat) (ds : List (String × Json)) (stop : Nat) :
    Prop :=
  stop = start + ds.length ∧
  ds.map Prod.fst = annolistNames start ds.length

/-- Specification predicate (for C9, worded after the spec): the
resolved base prefix is the configured URL prefix or, when that is
unconfigured (absent or empty), the manifest id. -/
def PfxIs (minfo : MInfo) (opts : Opts) (p : String) : Prop :=
  (∃ s, opts.urlPfx = some s ∧ s ≠ "" ∧ p = s) ∨
  ((opts.urlPfx = none ∨ opts.urlPfx = some "") ∧
    minfo.id = some (.str p))

/-- Specification predicate (for C5): how one insert-mode canvas step
may change a canvas: when its id has no by-target bucket the canvas is
returned untouched; when it has one, only the annotation-container field
`fld` is reassigned (every other field keeps its value, by the
dict-assignment semantics of `objSetKvs`). -/
def CRel (bt : List (Json × PutVal)) (fld idKey : String) (c c' : Json) :
    Prop :=
  ∃ ckvs, c = .obj ckvs ∧
    (btGet bt ((olookup ckvs idKey).getD .null) = none → c' = c) ∧
    (btGet bt ((olookup ckvs idKey).getD .null) ≠ none →
      ∃ v, c' = .obj (objSetKvs ckvs fld v))

/-- Specification predicate (for C5): an insert-mode v2 sequence step
reassigns only the canvases list, with every canvas related by `CRel`. -/
def SeqRel (bt : List (Json × PutVal)) (s s' : Json) : Prop :=
  ∃ skvs cs cs', s = .obj skvs ∧
    olookup skvs "canvases" = some (.arr cs) ∧
    s' = .obj (objSetKvs skvs "canvases" (.arr cs')) ∧
    List.Forall₂ (CRel bt "otherContent" "@id") cs cs'

/-- A v2 canvas whose id has no by-target bucket in `exIdx`. -/
def exCanvas2b : Json :=
  .obj [("@id", .str "http://ex/c2"), ("@type", .str "sc:Canvas"),
    ("label", .str "p2"), ("images", .arr [])]

/-- A v3 canvas whose id has no by-target bucket in `exIdx`. -/
def exCanvas3b : Json :=
  .obj [("id", .str "http://ex/c2"), ("type", .str "Canvas"),
    ("label", .str "p2"), ("items", .arr [])]

/-- A v3 manifest with one matched and one unmatched canvas. -/
def exManif3b : Json :=
  .obj [("@context", .str "http://iiif.io/api/presentation/3/context.json"),
    ("id", .str "http://ex/man"), ("type", .str "Manifest"),
    ("label", .str "M"), ("items", .arr [exCanvas3, exCanvas3b])]

/-- A manifest info prepared for insertion into `exManif3b`. -/
def exMinfo3b : MInfo :=
  ⟨exIdx, exManif3b, some 3, some (.str "http://ex/newman"),
    some (.str "M"), []⟩

/-! Concrete evaluations checking the embedding against hand-traced runs
of the source. -/

example : pyRepr (.arr [.str "a", .num 2, .null]) = "[\x27a\x27, 2, None]" := by rfl
example : truthy (.obj []) = false := by rfl
example : partitionPre "http://ex/c1#xywh=0,0,1,1" = "http://ex/c1" := by rfl
example : lastSeg "http://ex/canvas/p7" = "p7" := by rfl

example :
    parse_anno (.obj [("@id", .str "a"), ("@type", .str "oa:Annotation"),
      ("on", .str "http://ex/c1#xywh=0,0,1,1")]) =
    .ok ⟨2, .str "a", .str "http://ex/c1", none,
      .obj [("@id", .str "a"), ("@type", .str "oa:Annotation"),
        ("on", .str "http://ex/c1#xywh=0,0,1,1")]⟩ := by rfl

example :
    parse_annotation_v2 (.obj [("@id", .str "a"),
      ("@type", .str "oa:Annotation"), ("on", .obj [])]) =
    .error (.annoMissingTarget (.str "a")) := by rfl

example :
    parse_annotation_v3 (.obj [("id", .str "a"), ("type", .str "Annotation"),
      ("target", .obj [("source", .str "http://ex/c1")]),
      ("motivation", .arr [.str "painting"])]) =
    .ok ⟨3, .str "a", .str "http://ex/c1", some (.str "painting"),
      .obj [("id", .str "a"), ("type", .str "Annotation"),
        ("target", .obj [("source", .str "http://ex/c1")]),
        ("motivation", .arr [.str "painting"])]⟩ := by rfl

example :
    parse_annotationlist_v2 (fun _ => none) 0
      (.obj [("@id", .str "L"), ("@type", .str "sc:AnnotationList"),
        ("resources", .arr [.obj [("@id", .str "a"),
          ("@type", .str "oa:Annotation"), ("on", .str "http://ex/c1#f")]])])
      none =
    .ok ⟨[⟨2, .str "a", .str "http://ex/c1", none,
        .obj [("@id", .str "a"), ("@type", .str "oa:Annotation"),
          ("on", .str "http://ex/c1#f")]⟩],
      [(.str "http://ex/c1", .list [⟨2, .str "a", .str "http://ex/c1", none,
        .obj [("@id", .str "a"), ("@type", .str "oa:Annotation"),
          ("on", .str "http://ex/c1#f")]⟩])],
      [none]⟩ := by rfl

example :
    parse_manifest noFetch 0 exManif2 none optsRead =
    .ok (⟨exIdx, exManif2, some 2, some (.str "http://ex/man"),
      some (.str "M"), [.str "http://ex/c1"]⟩, []) := by rfl

example :
    parse_manifest_v3 noFetch 0 exManif3 exMinfo3 optsInsert =
    .ok (⟨exIdx,
      .obj [("@context",
          .str "http://iiif.io/api/presentation/3/context.json"),
        ("id", .str "http://ex/newman"), ("type", .str "Manifest"),
        ("label", .str "M"),
        ("items", .arr [.obj [("id", .str "http://ex/c1"),
          ("type", .str "Canvas"), ("label", .str "p1"),
          ("items", .arr []),
          ("annotations", .arr [.obj [
            ("id", .str "http://ex/newman/annolist-1.json"),
            ("type", .str "AnnotationPage")]])]])],
      some 3, some (.str "http://ex/newman"), some (.str "M"), []⟩,
      [("annolist-1.json", .obj [("type", .str "AnnotationPage"),
        ("id", .str "http://ex/newman/annolist-1.json"),
        ("partOf", .str "http://ex/newman"),
        ("@context", .str "http://iiif.io/api/presentation/3/context.json"),
        ("items", .arr [exAnno2])])]) := by rfl

/-! Helper lemmas for computing with the `Except` monad and the dict
model. -/

@[simp] theorem exc_bind_ok {α β : Type} (a : α) (f : α → Except Err β) :
    (Except.ok a >>= f) = f a := rfl

@[simp] theorem exc_bind_err {α β : Type} (e : Err) (f : α → Except Err β) :
    ((Except.error e : Except Err α) >>= f) = .error e := rfl

@[simp] theorem exc_pure {α : Type} (a : α) :
    (pure a : Except Err α) = .ok a := rfl

@[simp] theorem exc_throw {α : Type} (e : Err) :
    (throw e : Except Err α) = .error e := rfl

/-! Inversion lemmas: what a successful annotation parse determines about
the returned record. -/

/-- Fields of a successful `parse_annotation_v2` result: version 2, the
id value, the original document as the raw payload, and the motivation
normalization of the source. -/
theorem parse_annotation_v2_fields (kvs : List (String × Json))
    (r : AnnoInfo) (h : parse_annotation_v2 (.obj kvs) = .ok r) :
    r.version = 2 ∧ r.id = (olookup kvs "@id").getD .null ∧
    r.raw = .obj kvs ∧
    r.motivation = (if hasKey kvs "motivation" then
      some (get_string ((olookup kvs "motivation").getD .null)) else none) := by
  unfold parse_annotation_v2 at h
  simp only [asObj, exc_bind_ok, exc_bind_err, exc_pure, exc_throw] at h
  repeat' split at h
  all_goals try injection h with h
  all_goals try subst h
  all_goals simp_all

/-- Fields of a successful `parse_annotation_v3` result. -/
theorem parse_annotation_v3_fields (kvs : List (String × Json))
    (r : AnnoInfo) (h : parse_annotation_v3 (.obj kvs) = .ok r) :
    r.version = 3 ∧ r.id = (olookup kvs "id").getD .null ∧
    r.raw = .obj kvs ∧
    r.motivation = (if hasKey kvs "motivation" then
      some (get_string ((olookup kvs "motivation").getD .null)) else none) := by
  unfold parse_annotation_v3 at h
  simp only [asObj, exc_bind_ok, exc_bind_err, exc_pure, exc_throw] at h
  repeat' split at h
  all_goals try injection h with h
  all_goals try subst h
  all_goals simp_all

/-- A successful dispatch preserves the raw payload: the record carries
the input document unchanged. -/
theorem parse_anno_raw (a : Json) (r : AnnoInfo)
    (h : parse_anno a = .ok r) : r.raw = a := by
  cases a <;>
    (unfold parse_anno at h;
     simp only [asObj, exc_bind_ok, exc_bind_err, exc_pure, exc_throw] at h) <;>
    try exact absurd h (by simp)
  case obj kvs =>
    split at h
    · exact (parse_annotation_v3_fields kvs r h).2.2.1
    · split at h
      · exact (parse_annotation_v2_fields kvs r h).2.2.1
      · simp at h

/-! Claim C3: target normalization. -/

/-- C3 counterexample: an annotation whose target is present but is the
empty object.  The claim says an object target without `id` or `full`
fails with the invalid-target error; the source checks `if not
anno_target` first, so the falsy empty object raises the missing-target
error instead. -/
theorem c3_empty_object_target_missing :
    parse_annotation_v2 emptyTargetAnno =
      .error (.annoMissingTarget (.str "a")) ∧
    Err.annoMissingTarget (.str "a") ≠ Err.targetNoIdFull (.str "a") ∧
    Err.annoMissingTarget (.str "a") ≠ Err.targetNotStrDict (.str "a") :=
  ⟨rfl, by decide, by decide⟩

/-- C3 (amended): for annotations with a truthy id, a truthy (non-empty)
string target is split on the first hash keeping the prefix; a truthy
(non-empty) object target uses its `id` value, else its `full` (v2) or
`source` (v3) value, else fails with the invalid-target error; any other
truthy target fails with the invalid-target error; a falsy target
(absent, null, false, zero, empty string, empty list or empty object)
fails with the missing-target error instead. -/
theorem c3_target_normalization (kvs : List (String × Json)) :
    (truthyOpt (olookup kvs "@id") = true →
      (∀ s, olookup kvs "on" = some (.str s) → s ≠ "" →
        ∃ r, parse_annotation_v2 (.obj kvs) = .ok r ∧
          r.target = .str (partitionPre s)) ∧
      (∀ tkvs v, olookup kvs "on" = some (.obj tkvs) → tkvs ≠ [] →
        olookup tkvs "id" = some v →
        ∃ r, parse_annotation_v2 (.obj kvs) = .ok r ∧ r.target = v) ∧
      (∀ tkvs v, olookup kvs "on" = some (.obj tkvs) → tkvs ≠ [] →
        olookup tkvs "id" = none → olookup tkvs "full" = some v →
        ∃ r, parse_annotation_v2 (.obj kvs) = .ok r ∧ r.target = v) ∧
      (∀ tkvs, olookup kvs "on" = some (.obj tkvs) → tkvs ≠ [] →
        olookup tkvs "id" = none → olookup tkvs "full" = none →
        parse_annotation_v2 (.obj kvs) =
          .error (.targetNoIdFull ((olookup kvs "@id").getD .null))) ∧
      (∀ j, olookup kvs "on" = some j → truthy j = true →
        (∀ s, j ≠ .str s) → (∀ tkvs, j ≠ .obj tkvs) →
        parse_annotation_v2 (.obj kvs) =
          .error (.targetNotStrDict ((olookup kvs "@id").getD .null))) ∧
      (truthyOpt (olookup kvs "on") = false →
        parse_annotation_v2 (.obj kvs) =
          .error (.annoMissingTarget ((olookup kvs "@id").getD .null)))) ∧
    (truthyOpt (olookup kvs "id") = true →
      (∀ s, olookup kvs "target" = some (.str s) → s ≠ "" →
        ∃ r, parse_annotation_v3 (.obj kvs) = .ok r ∧
          r.target = .str (partitionPre s)) ∧
      (∀ tkvs v, olookup kvs "target" = some (.obj tkvs) → tkvs ≠ [] →
        olookup tkvs "id" = some v →
        ∃ r, parse_annotation_v3 (.obj kvs) = .ok r ∧ r.target = v) ∧
      (∀ tkvs v, olookup kvs "target" = some (.obj tkvs) → tkvs ≠ [] →
        olookup tkvs "id" = none → olookup tkvs "source" = some v →
        ∃ r, parse_annotation_v3 (.obj kvs) = .ok r ∧ r.target = v) ∧
      (∀ tkvs, olookup kvs "target" = some (.obj tkvs) → tkvs ≠ [] →
        olookup tkvs "id" = none → olookup tkvs "source" = none →
        parse_annotation_v3 (.obj kvs) =
          .error (.targetNoIdSource ((olookup kvs "id").getD .null))) ∧
      (∀ j, olookup kvs "target" = some j → truthy j = true →
        (∀ s, j ≠ .str s) → (∀ tkvs, j ≠ .obj tkvs) →
        parse_annotation_v3 (.obj kvs) =
          .error (.targetNotStrDict ((olookup kvs "id").getD .null))) ∧
      (truthyOpt (olookup kvs "target") = false →
        parse_annotation_v3 (.obj kvs) =
          .error (.annoMissingTarget ((olookup kvs "id").getD .null)))) := by
  constructor
  · intro hid
    refine ⟨?_, ?_, ?_, ?_, ?_, ?_⟩
    · intro s hon hs
      have htar : truthyOpt (some (Json.str s)) = true := by
        simp [truthyOpt, truthy, hs]
      refine ⟨⟨2, (olookup kvs "@id").getD .null, .str (partitionPre s),
        (if hasKey kvs "motivation" then
          some (get_string ((olookup kvs "motivation").getD .null))
          else none), .obj kvs⟩, ?_, rfl⟩
      unfold parse_annotation_v2
      simp [asObj, hid, hon, htar]
    · intro tkvs v hon ht hidv
      have htar : truthyOpt (some (Json.obj tkvs)) = true := by
        simp [truthyOpt, truthy, ht]
      refine ⟨⟨2, (olookup kvs "@id").getD .null, v,
        (if hasKey kvs "motivation" then
          some (get_string ((olookup kvs "motivation").getD .null))
          else none), .obj kvs⟩, ?_, rfl⟩
      unfold parse_annotation_v2
      simp [asObj, hid, hon, htar, hidv]
    · intro tkvs v hon ht hidn hfull
      have htar : truthyOpt (some (Json.obj tkvs)) = true := by
        simp [truthyOpt, truthy, ht]
      refine ⟨⟨2, (olookup kvs "@id").getD .null, v,
        (if hasKey kvs "motivation" then
          some (get_string ((olookup kvs "motivation").getD .null))
          else none), .obj kvs⟩, ?_, rfl⟩
      unfold parse_annotation_v2
      simp [asObj, hid, hon, htar, hidn, hfull]
    · intro tkvs hon ht hidn hfull
      have htar : truthyOpt (some (Json.obj tkvs)) = true := by
        simp [truthyOpt, truthy, ht]
      unfold parse_annotation_v2
      simp [asObj, hid, hon, htar, hidn, hfull]
    · intro j hon htr hns hno
      have htar : truthyOpt (some j) = true := htr
      unfold parse_annotation_v2
      rcases j with _ | b | n | s | xs | tkvs
      · simp [truthy] at htr
      · simp [asObj, hid, hon, htar]
      · simp [asObj, hid, hon, htar]
      · exact absurd rfl (hns s)
      · simp [asObj, hid, hon, htar]
      · exact absurd rfl (hno tkvs)
    · intro hno
      unfold parse_annotation_v2
      simp [asObj, hid, hno]
  · intro hid
    refine ⟨?_, ?_, ?_, ?_, ?_, ?_⟩
    · intro s hon hs
      have htar : truthyOpt (some (Json.str s)) = true := by
        simp [truthyOpt, truthy, hs]
      refine ⟨⟨3, (olookup kvs "id").getD .null, .str (partitionPre s),
        (if hasKey kvs "motivation" then
          some (get_string ((olookup kvs "motivation").getD .null))
          else none), .obj kvs⟩, ?_, rfl⟩
      unfold parse_annotation_v3
      simp [asObj, hid, hon, htar]
    · intro tkvs v hon ht hidv
      have htar : truthyOpt (some (Json.obj tkvs)) = true := by
        simp [truthyOpt, truthy, ht]
      refine ⟨⟨3, (olookup kvs "id").getD .null, v,
        (if hasKey kvs "motivation" then
          some (get_string ((olookup kvs "motivation").getD .null))
          else none), .obj kvs⟩, ?_, rfl⟩
      unfold parse_annotation_v3
      simp [asObj, hid, hon, htar, hidv]
    · intro tkvs v hon ht hidn hsrc
      have htar : truthyOpt (some (Json.obj tkvs)) = true := by
        simp [truthyOpt, truthy, ht]
      refine ⟨⟨3, (olookup kvs "id").getD .null, v,
        (if hasKey kvs "motivation" then
          some (get_string ((olookup kvs "motivation").getD .null))
          else none), .obj kvs⟩, ?_, rfl⟩
      unfold parse_annotation_v3
      simp [asObj, hid, hon, htar, hidn, hsrc]
    · intro tkvs hon ht hidn hsrc
      have htar : truthyOpt (some (Json.obj tkvs)) = true := by
        simp [truthyOpt, truthy, ht]
      unfold parse_annotation_v3
      simp [asObj, hid, hon, htar, hidn, hsrc]
    · intro j hon htr hns hno
      have htar : truthyOpt (some j) = true := htr
      unfold parse_annotation_v3
      rcases j with _ | b | n | s | xs | tkvs
      · simp [truthy] at htr
      · simp [asObj, hid, hon, htar]
      · simp [asObj, hid, hon, htar]
      · exact absurd rfl (hns s)
      · simp [asObj, hid, hon, htar]
      · exact absurd rfl (hno tkvs)
    · intro hno
      unfold parse_annotation_v3
      simp [asObj, hid, hno]

/-- C3 witness: the string-target case at a concrete annotation with a
fragment selector. -/
theorem c3_target_normalization_witness :
    ∃ r, parse_annotation_v2 exAnno2 = .ok r ∧
      r.target = .str (partitionPre "http://ex/c1#f") :=
  ((c3_target_normalization
    [("@id", .str "a"), ("@type", .str "oa:Annotation"),
      ("on", .str "http://ex/c1#f")]).1 (by decide)).1
    "http://ex/c1#f" rfl (by decide)

/-! Claim C4: manifest version dispatch. -/

/-- C4 counterexample: a well-formed v3 manifest without any `@context`.
The claim says the `type` field decides the version for a schema-less
document; `parse_manifest` only compares `@context` against the two
canonical URIs and raises otherwise, even though the v3 traversal itself
would accept the document. -/
theorem c4_no_type_fallback :
    parse_manifest noFetch 0 noCtxManif none optsRead =
      .error .unsupportedSchema ∧
    parse_manifest_v3 noFetch 0 noCtxManif (MInfo.fresh noCtxManif)
      optsRead =
      .ok (⟨AIndex.empty, noCtxManif, some 3, some (.str "http://ex/man"),
        some (.str "M"), []⟩, []) :=
  ⟨rfl, rfl⟩

/-- C4 (amended): `parse_manifest` dispatches solely on the `@context`
value: the canonical v3 context URI selects the v3 traversal, the
canonical v2 context URI selects the v2 traversal, and any other value
(including a missing context, with the `type`/`@type` fields never
consulted) fails with the unsupported-schema error. -/
theorem c4_dispatch_by_context_only (fetch : String → Option Json)
    (fuel : Nat) (kvs : List (String × Json)) (minfo? : Option MInfo)
    (opts : Opts) :
    (olookup kvs "@context" =
        some (.str "http://iiif.io/api/presentation/3/context.json") →
      parse_manifest fetch fuel (.obj kvs) minfo? opts =
        parse_manifest_v3 fetch fuel (.obj kvs)
          (minfo?.getD (MInfo.fresh (.obj kvs))) opts) ∧
    (olookup kvs "@context" =
        some (.str "http://iiif.io/api/presentation/2/context.json") →
      parse_manifest fetch fuel (.obj kvs) minfo? opts =
        parse_manifest_v2 fetch fuel (.obj kvs)
          (minfo?.getD (MInfo.fresh (.obj kvs))) opts) ∧
    (olookup kvs "@context" ≠
        some (.str "http://iiif.io/api/presentation/3/context.json") →
      olookup kvs "@context" ≠
        some (.str "http://iiif.io/api/presentation/2/context.json") →
      parse_manifest fetch fuel (.obj kvs) minfo? opts =
        .error .unsupportedSchema) := by
  refine ⟨?_, ?_, ?_⟩
  · intro h
    cases minfo? <;> simp [parse_manifest, asObj, h, Option.getD]
  · intro h
    cases minfo? <;> simp [parse_manifest, asObj, h, Option.getD]
  · intro h3 h2
    cases minfo? <;> simp [parse_manifest, asObj, h3, h2, Option.getD]

/-- C4 witness: the v2 conjunct at the concrete example manifest. -/
theorem c4_dispatch_witness :
    parse_manifest noFetch 0 exManif2 none optsRead =
      parse_manifest_v2 noFetch 0 exManif2 (MInfo.fresh exManif2)
        optsRead :=
  (c4_dispatch_by_context_only noFetch 0
    [("@context", .str "http://iiif.io/api/presentation/2/context.json"),
      ("@id", .str "http://ex/man"), ("@type", .str "sc:Manifest"),
      ("label", .str "M"), ("sequences", .arr [exSeq2])] none
    optsRead).2.1 rfl

/-! Claim C6: motivation normalization. -/

/-- C6 counterexample: a motivation that is a one-element list holding a
nested list.  The unwrap returns the sole element unchanged, so the
record keeps a raw nested (list) value, contradicting the claim that the
motivation is never left as a raw nested value. -/
theorem c6_nested_motivation_kept_raw :
    parse_annotation_v2 nestedMotAnno =
      .ok ⟨2, .str "a", .str "http://ex/c1",
        some (.arr [.str "a", .str "b"]), nestedMotAnno⟩ ∧
    (∀ s, Json.arr [.str "a", .str "b"] ≠ .str s) :=
  ⟨rfl, fun _ h => Json.noConfusion h⟩

/-- C6 (amended): when the motivation field is present the record's
motivation is `get_string` of its value: a string passes through, a
one-element list unwraps to its sole element (which may itself be a
nested list or mapping and is then kept as that raw value), and any
other shape is coerced to its deterministic textual representation; when
the field is absent the motivation is absent. -/
theorem c6_motivation_normalization :
    (∀ s, get_string (.str s) = .str s) ∧
    (∀ x, get_string (.arr [x]) = x) ∧
    (∀ v, (∀ s, v ≠ .str s) → (∀ x, v ≠ .arr [x]) →
      get_string v = .str (pyRepr v)) ∧
    (∀ kvs r, parse_annotation_v2 (.obj kvs) = .ok r →
      r.motivation = (if hasKey kvs "motivation" then
        some (get_string ((olookup kvs "motivation").getD .null))
        else none)) ∧
    (∀ kvs r, parse_annotation_v3 (.obj kvs) = .ok r →
      r.motivation = (if hasKey kvs "motivation" then
        some (get_string ((olookup kvs "motivation").getD .null))
        else none)) := by
  refine ⟨fun s => rfl, fun x => rfl, ?_, ?_, ?_⟩
  · intro v hs hx
    rcases v with _ | b | n | s | xs | tkvs
    · rfl
    · rfl
    · rfl
    · exact absurd rfl (hs s)
    · rcases xs with _ | ⟨x, _ | ⟨y, rest⟩⟩
      · rfl
      · exact absurd rfl (hx x)
      · rfl
    · rfl
  · intro kvs r h
    exact (parse_annotation_v2_fields kvs r h).2.2.2
  · intro kvs r h
    exact (parse_annotation_v3_fields kvs r h).2.2.2

/-- C6 witness: the coercion case at a two-element list motivation. -/
theorem c6_motivation_normalization_witness :
    get_string (.arr [.str "a", .str "b"]) =
      .str (pyRepr (.arr [.str "a", .str "b"])) :=
  c6_motivation_normalization.2.2.1 (.arr [.str "a", .str "b"])
    (fun _ h => Json.noConfusion h)
    (by intro x h; simp at h)

/-! Machinery for properties preserved by the container parsers. -/

/-- Membership after a set add: the old elements plus the new one. -/
theorem set_add_mot_mem (s : List (Option Json)) (m : Option Json)
    (s' : List (Option Json)) (h : set_add_mot s m = .ok s')
    (x : Option Json) : x ∈ s' ↔ (x ∈ s ∨ x = m) := by
  rcases m with _ | j <;> simp only [set_add_mot] at h
  · injection h with h
    subst h
    by_cases hm : (none : Option Json) ∈ s
    · simp only [hm, if_true]
      constructor
      · exact fun hx => Or.inl hx
      · rintro (hx | rfl)
        · exact hx
        · exact hm
    · simp [hm, List.mem_append]
  · split at h
    · injection h with h
      subst h
      by_cases hm : some j ∈ s
      · simp only [hm, if_true]
        constructor
        · exact fun hx => Or.inl hx
        · rintro (hx | rfl)
          · exact hx
          · exact hm
      · simp [hm, List.mem_append]
    · simp at h

/-- The empty accumulator satisfies the motivations invariant. -/
theorem motinv_empty : MotInv AIndex.empty := by
  intro m
  simp [AIndex.empty, MotInv]

/-- The per-annotation fold preserves the motivations invariant. -/
theorem parse_annos_fold_motinv (items : List Json) (a a' : AIndex)
    (h : parse_annos_fold items a = .ok a') (ha : MotInv a) : MotInv a' := by
  induction items generalizing a with
  | nil =>
    unfold parse_annos_fold at h
    injection h with h
    subst h
    exact ha
  | cons anno rest ih =>
    unfold parse_annos_fold at h
    cases hp : parse_anno anno with
    | error e => rw [hp] at h; simp at h
    | ok ai =>
      rw [hp] at h
      simp only [exc_bind_ok] at h
      cases hb : put_add a.by_target ai.target ai true with
      | error e => rw [hb] at h; simp at h
      | ok bt =>
        rw [hb] at h
        simp only [exc_bind_ok] at h
        cases hm : set_add_mot a.motivations ai.motivation with
        | error e => rw [hm] at h; simp at h
        | ok mv =>
          rw [hm] at h
          simp only [exc_bind_ok] at h
          refine ih _ h ?_
          intro m
          rw [set_add_mot_mem _ _ _ hm m, ha m]
          constructor
          · rintro (⟨r, hr, hrm⟩ | rfl)
            · exact ⟨r, by simp [hr], hrm⟩
            · exact ⟨ai, by simp, rfl⟩
          · rintro ⟨r, hr, hrm⟩
            rcases List.mem_append.mp hr with h1 | h2
            · exact Or.inl ⟨r, h1, hrm⟩
            · rw [List.mem_singleton] at h2
              subst h2
              exact Or.inr hrm.symm

/-- Any accumulator property preserved by the annotation fold and true of
the empty accumulator is preserved by `parse_annotationlist_v2`,
whatever fuel the external-reference recursion gets. -/
theorem parse_annotationlist_v2_pres (P : AIndex → Prop)
    (hfold : ∀ items a a', parse_annos_fold items a = .ok a' → P a → P a')
    (hempty : P AIndex.empty) (fetch : String → Option Json) :
    ∀ fuel (doc : Json) (seed : Option AIndex) (a' : AIndex),
      (∀ b, seed = some b → P b) →
      parse_annotationlist_v2 fetch fuel doc seed = .ok a' → P a' := by
  intro fuel
  induction fuel with
  | zero =>
    intro doc seed a' hseed h
    have ha : P (seed.getD AIndex.empty) := by
      cases seed with
      | none => exact hempty
      | some b => exact hseed b rfl
    unfold parse_annotationlist_v2 at h
    cases doc <;>
      simp only [asObj, exc_bind_ok, exc_bind_err, exc_pure, exc_throw] at h
    case obj kvs =>
      repeat' split at h
      all_goals first
        | exact hfold _ _ _ h ha
        | simp at h
    all_goals simp at h
  | succ n ih =>
    intro doc seed a' hseed h
    have ha : P (seed.getD AIndex.empty) := by
      cases seed with
      | none => exact hempty
      | some b => exact hseed b rfl
    unfold parse_annotationlist_v2 at h
    cases doc <;>
      simp only [asObj, exc_bind_ok, exc_bind_err, exc_pure, exc_throw] at h
    case obj kvs =>
      repeat' split at h
      all_goals first
        | exact hfold _ _ _ h ha
        | exact ih _ (some _) a'
            (fun b hb => by injection hb with hb; rw [← hb]; exact ha) h
        | simp at h
    all_goals simp at h

/-- The v3 analogue of `parse_annotationlist_v2_pres`. -/
theorem parse_annotationlist_v3_pres (P : AIndex → Prop)
    (hfold : ∀ items a a', parse_annos_fold items a = .ok a' → P a → P a')
    (hempty : P AIndex.empty) (fetch : String → Option Json) :
    ∀ fuel (doc : Json) (seed : Option AIndex) (a' : AIndex),
      (∀ b, seed = some b → P b) →
      parse_annotationlist_v3 fetch fuel doc seed = .ok a' → P a' := by
  intro fuel
  induction fuel with
  | zero =>
    intro doc seed a' hseed h
    have ha : P (seed.getD AIndex.empty) := by
      cases seed with
      | none => exact hempty
      | some b => exact hseed b rfl
    unfold parse_annotationlist_v3 at h
    cases doc <;>
      simp only [asObj, exc_bind_ok, exc_bind_err, exc_pure, exc_throw] at h
    case obj kvs =>
      repeat' split at h
      all_goals first
        | exact hfold _ _ _ h ha
        | simp at h
    all_goals simp at h
  | succ n ih =>
    intro doc seed a' hseed h
    have ha : P (seed.getD AIndex.empty) := by
      cases seed with
      | none => exact hempty
      | some b => exact hseed b rfl
    unfold parse_annotationlist_v3 at h
    cases doc <;>
      simp only [asObj, exc_bind_ok, exc_bind_err, exc_pure, exc_throw] at h
    case obj kvs =>
      repeat' split at h
      all_goals first
        | exact hfold _ _ _ h ha
        | exact ih _ (some _) a'
            (fun b hb => by injection hb with hb; rw [← hb]; exact ha) h
        | simp at h
    all_goals simp at h

/-! Claim C7: the motivations component. -/

/-- C7 counterexample: parsing a container holding one annotation whose
motivation field is absent.  The claim says such records contribute
nothing, so the motivations set should be empty; the source adds the
`None` motivation unconditionally and the set ends up non-empty. -/
theorem c7_absent_motivation_contributes_none :
    parse_annotationlist_v2 noFetch 0 exList2 none = .ok exIdx ∧
    exRec2.motivation = none ∧
    exIdx.motivations = [none] ∧
    ([none] : List (Option Json)) ≠ [] :=
  ⟨rfl, rfl, rfl, by decide⟩

/-- C7 (amended): after any successful container parse (v2 or v3,
accumulating into a fresh index or one satisfying the same property),
the motivations component is exactly the set of motivation values of the
records, where a record with an absent motivation field contributes the
distinguished `None` value rather than being excluded. -/
theorem c7_motivations_are_record_motivations (fetch : String → Option Json)
    (fuel : Nat) (doc : Json) (seed : Option AIndex) (a' : AIndex)
    (hseed : ∀ b, seed = some b → MotInv b)
    (h : parse_annotationlist_v2 fetch fuel doc seed = .ok a' ∨
      parse_annotationlist_v3 fetch fuel doc seed = .ok a') :
    MotInv a' := by
  rcases h with h | h
  · exact parse_annotationlist_v2_pres MotInv parse_annos_fold_motinv
      motinv_empty fetch fuel doc seed a' hseed h
  · exact parse_annotationlist_v3_pres MotInv parse_annos_fold_motinv
      motinv_empty fetch fuel doc seed a' hseed h

/-- C7 witness: the concrete one-annotation container. -/
theorem c7_motivations_witness :
    parse_annotationlist_v2 noFetch 0 exList2 none = .ok exIdx ∧
    MotInv exIdx :=
  ⟨rfl, c7_motivations_are_record_motivations noFetch 0 exList2 none exIdx
    (fun _ hb => Option.noConfusion hb) (Or.inl rfl)⟩

/-! Properties of `put_add_core` needed for the C2 invariant. -/

/-- The records after `put_add_core` are a permutation of the old
records plus the new one. -/
theorem put_add_core_join (bt : List (Json × PutVal)) (key : Json)
    (val : AnnoInfo) :
    (btJoin (put_add_core bt key val true)).Perm (btJoin bt ++ [val]) := by
  induction bt with
  | nil => simp [put_add_core, btJoin, pvList]
  | cons kv rest ih =>
    obtain ⟨k, v⟩ := kv
    by_cases hk : k = key
    · subst hk
      cases v with
      | list l =>
        simp only [put_add_core, if_pos rfl, btJoin, pvList]
        rw [List.append_assoc, List.append_assoc]
        exact List.Perm.append_left l List.perm_append_comm
      | one w =>
        simp only [put_add_core, if_pos rfl, btJoin, pvList]
        have he : ([w] ++ btJoin rest) ++ [val] =
            w :: (btJoin rest ++ [val]) := by simp
        rw [he]
        exact List.Perm.cons w List.perm_append_comm
    · simp only [put_add_core, if_neg hk, btJoin]
      rw [List.append_assoc]
      exact List.Perm.append_left _ ih

/-- The keys after `put_add_core`: unchanged for an existing key, the
new key appended at the end otherwise. -/
theorem put_add_core_keys (bt : List (Json × PutVal)) (key : Json)
    (val : AnnoInfo) (single : Bool) :
    (put_add_core bt key val single).map Prod.fst =
      (if key ∈ bt.map Prod.fst then bt.map Prod.fst
       else bt.map Prod.fst ++ [key]) := by
  induction bt with
  | nil => cases single <;> simp [put_add_core]
  | cons kv rest ih =>
    obtain ⟨k, v⟩ := kv
    by_cases hk : k = key
    · subst hk
      cases v <;> simp [put_add_core]
    · have hk' : ¬ key = k := fun he => hk he.symm
      cases v <;>
        by_cases hmem : key ∈ rest.map Prod.fst <;>
        simp [put_add_core, hk, hk', hmem, ih]

/-- Bucket homogeneity is preserved by `put_add_core` when the new
record's target is the key it is filed under. -/
theorem put_add_core_homog (bt : List (Json × PutVal)) (key : Json)
    (val : AnnoInfo)
    (hh : ∀ kv ∈ bt, ∀ r ∈ pvList kv.2, r.target = kv.1)
    (hv : val.target = key) :
    ∀ kv ∈ put_add_core bt key val true, ∀ r ∈ pvList kv.2,
      r.target = kv.1 := by
  induction bt with
  | nil =>
    intro kv hkv r hr
    simp [put_add_core] at hkv
    subst hkv
    simp [pvList] at hr
    subst hr
    exact hv
  | cons kv0 rest ih =>
    obtain ⟨k, v⟩ := kv0
    by_cases hk : k = key
    · subst hk
      cases v with
      | list l =>
        intro kv hkv r hr
        rw [show put_add_core ((k, PutVal.list l) :: rest) k val true =
            (k, PutVal.list (l ++ [val])) :: rest from by
          simp [put_add_core]] at hkv
        rw [List.mem_cons] at hkv
        rcases hkv with rfl | hkv
        · simp only [pvList] at hr
          rw [List.mem_append, List.mem_singleton] at hr
          rcases hr with hr | rfl
          · exact hh (k, .list l) (by simp) r (by simp [pvList, hr])
          · exact hv
        · exact hh kv (by simp [hkv]) r hr
      | one w =>
        intro kv hkv r hr
        rw [show put_add_core ((k, PutVal.one w) :: rest) k val true =
            (k, PutVal.list [w, val]) :: rest from by
          simp [put_add_core]] at hkv
        rw [List.mem_cons] at hkv
        rcases hkv with rfl | hkv
        · simp only [pvList] at hr
          rw [List.mem_cons, List.mem_singleton] at hr
          rcases hr with rfl | rfl
          · exact hh (k, .one r) (by simp) r (by simp [pvList])
          · exact hv
        · exact hh kv (by simp [hkv]) r hr
    · intro kv hkv r hr
      rw [show put_add_core ((k, v) :: rest) key val true =
          (k, v) :: put_add_core rest key val true from by
        simp [put_add_core, hk]] at hkv
      rw [List.mem_cons] at hkv
      rcases hkv with rfl | hkv
      · exact hh (k, v) (by simp) r hr
      · exact ih (fun kv2 h2 r2 hr2 => hh kv2 (List.mem_cons_of_mem _ h2) r2 hr2)
          kv hkv r hr

/-- Every bucket is a list after `put_add_core` with the
single-item-list flag (the touched bucket always becomes a list). -/
theorem put_add_core_allList (bt : List (Json × PutVal)) (key : Json)
    (val : AnnoInfo)
    (h : ∀ kv ∈ bt, ∃ l, kv.2 = PutVal.list l) :
    ∀ kv ∈ put_add_core bt key val true, ∃ l, kv.2 = PutVal.list l := by
  induction bt with
  | nil =>
    intro kv hkv
    simp [put_add_core] at hkv
    subst hkv
    exact ⟨[val], rfl⟩
  | cons kv0 rest ih =>
    obtain ⟨k, v⟩ := kv0
    by_cases hk : k = key
    · subst hk
      cases v with
      | list l =>
        intro kv hkv
        rw [show put_add_core ((k, PutVal.list l) :: rest) k val true =
            (k, PutVal.list (l ++ [val])) :: rest from by
          simp [put_add_core]] at hkv
        rw [List.mem_cons] at hkv
        rcases hkv with rfl | hkv
        · exact ⟨l ++ [val], rfl⟩
        · exact h kv (by simp [hkv])
      | one w =>
        intro kv hkv
        rw [show put_add_core ((k, PutVal.one w) :: rest) k val true =
            (k, PutVal.list [w, val]) :: rest from by
          simp [put_add_core]] at hkv
        rw [List.mem_cons] at hkv
        rcases hkv with rfl | hkv
        · exact ⟨[w, val], rfl⟩
        · exact h kv (by simp [hkv])
    · intro kv hkv
      rw [show put_add_core ((k, v) :: rest) key val true =
          (k, v) :: put_add_core rest key val true from by
        simp [put_add_core, hk]] at hkv
      rw [List.mem_cons] at hkv
      rcases hkv with rfl | hkv
      · exact h (k, v) (by simp)
      · exact ih (fun kv2 h2 => h kv2 (List.mem_cons_of_mem _ h2)) kv hkv

/-- The per-annotation fold preserves the C2 invariant. -/
theorem parse_annos_fold_inva (items : List Json) (a a' : AIndex)
    (h : parse_annos_fold items a = .ok a') (ha : InvA a) : InvA a' := by
  induction items generalizing a with
  | nil =>
    unfold parse_annos_fold at h
    injection h with h
    subst h
    exact ha
  | cons anno rest ih =>
    unfold parse_annos_fold at h
    cases hp : parse_anno anno with
    | error e => rw [hp] at h; simp at h
    | ok ai =>
      rw [hp] at h
      simp only [exc_bind_ok] at h
      cases hb : put_add a.by_target ai.target ai true with
      | error e => rw [hb] at h; simp at h
      | ok bt =>
        rw [hb] at h
        simp only [exc_bind_ok] at h
        cases hm : set_add_mot a.motivations ai.motivation with
        | error e => rw [hm] at h; simp at h
        | ok mv =>
          rw [hm] at h
          simp only [exc_bind_ok] at h
          refine ih _ h ?_
          have hbt : bt = put_add_core a.by_target ai.target ai true := by
            unfold put_add at hb
            split at hb
            · injection hb with hb
              exact hb.symm
            · simp at hb
          subst hbt
          obtain ⟨hperm, hhomog, hnodup, hlist⟩ := ha
          refine ⟨?_, ?_, ?_, ?_⟩
          · exact ((hperm.append_right [ai]).trans
              (put_add_core_join a.by_target ai.target ai).symm)
          · exact put_add_core_homog a.by_target ai.target ai hhomog rfl
          · rw [put_add_core_keys]
            split
            · exact hnodup
            · next hmem =>
              simpa using List.Nodup.append hnodup (List.nodup_singleton _)
                (by simpa using hmem)
          · exact put_add_core_allList a.by_target ai.target ai hlist

/-- The empty accumulator satisfies the C2 invariant. -/
theorem inva_empty : InvA AIndex.empty := by
  refine ⟨by simp [AIndex.empty, btJoin], ?_, ?_, ?_⟩ <;>
    simp [AIndex.empty]

/-- Length of the joined buckets is the sum of the bucket lengths. -/
theorem btJoin_length (bt : List (Json × PutVal)) :
    (btJoin bt).length = (bt.map (fun kv => (pvList kv.2).length)).sum := by
  induction bt with
  | nil => simp [btJoin]
  | cons kv rest ih => simp [btJoin, ih]

/-- Membership in the joined buckets. -/
theorem btJoin_mem (bt : List (Json × PutVal)) (r : AnnoInfo) :
    r ∈ btJoin bt ↔ ∃ kv ∈ bt, r ∈ pvList kv.2 := by
  induction bt with
  | nil => simp [btJoin]
  | cons kv rest ih => simp [btJoin, ih]

/-- What the C2 invariant yields: the claimed sum equation and the
exactly-one-bucket property. -/
theorem inva_conclusion (a : AIndex) (ha : InvA a) :
    (a.by_target.map (fun kv => (pvList kv.2).length)).sum =
      a.annotations.length ∧
    (∀ kv ∈ a.by_target, ∃ l, kv.2 = PutVal.list l) ∧
    (∀ r ∈ a.annotations, ∃ kv ∈ a.by_target, kv.1 = r.target ∧
      r ∈ pvList kv.2 ∧
      ∀ kv2 ∈ a.by_target, r ∈ pvList kv2.2 → kv2 = kv) := by
  obtain ⟨hperm, hhomog, hnodup, hlist⟩ := ha
  refine ⟨?_, hlist, ?_⟩
  · rw [← btJoin_length]
    exact hperm.length_eq.symm
  · intro r hr
    have hj : r ∈ btJoin a.by_target := hperm.mem_iff.mp hr
    obtain ⟨kv, hkv, hrkv⟩ := (btJoin_mem a.by_target r).mp hj
    refine ⟨kv, hkv, (hhomog kv hkv r hrkv).symm, hrkv, ?_⟩
    intro kv2 h2 hr2
    have e2 : r.target = kv2.1 := hhomog kv2 h2 r hr2
    have e1 : r.target = kv.1 := hhomog kv hkv r hrkv
    exact List.inj_on_of_nodup_map hnodup h2 hkv (by rw [← e2, ← e1])

/-! Claim C2: the by-target bookkeeping invariant. -/

/-- C2: after every successful container parse (v2 or v3, on a fresh
index or accumulating into an index already satisfying the parser
invariant), the bucket sizes sum to the record count, every bucket value
is a list, and every record appears in exactly one bucket — the one
keyed by its own target URI. -/
theorem c2_bytarget_invariant (fetch : String → Option Json) (fuel : Nat)
    (doc : Json) (seed : Option AIndex) (a' : AIndex)
    (hseed : ∀ b, seed = some b → InvA b)
    (h : parse_annotationlist_v2 fetch fuel doc seed = .ok a' ∨
      parse_annotationlist_v3 fetch fuel doc seed = .ok a') :
    (a'.by_target.map (fun kv => (pvList kv.2).length)).sum =
      a'.annotations.length ∧
    (∀ kv ∈ a'.by_target, ∃ l, kv.2 = PutVal.list l) ∧
    (∀ r ∈ a'.annotations, ∃ kv ∈ a'.by_target, kv.1 = r.target ∧
      r ∈ pvList kv.2 ∧
      ∀ kv2 ∈ a'.by_target, r ∈ pvList kv2.2 → kv2 = kv) := by
  have hi : InvA a' := by
    rcases h with h | h
    · exact parse_annotationlist_v2_pres InvA parse_annos_fold_inva
        inva_empty fetch fuel doc seed a' hseed h
    · exact parse_annotationlist_v3_pres InvA parse_annos_fold_inva
        inva_empty fetch fuel doc seed a' hseed h
  exact inva_conclusion a' hi

/-- C2 witness: the concrete one-annotation container. -/
theorem c2_bytarget_invariant_witness :
    parse_annotationlist_v2 noFetch 0 exList2 none = .ok exIdx ∧
    (exIdx.by_target.map (fun kv => (pvList kv.2).length)).sum =
      exIdx.annotations.length :=
  ⟨rfl, (c2_bytarget_invariant noFetch 0 exList2 none exIdx
    (fun _ hb => Option.noConfusion hb) (Or.inl rfl)).1⟩

/-! Claim C1: the container round trip. -/

/-- When every item re-parses as an annotation with a hashable target
and motivation, the annotation fold succeeds and appends records whose
raw payloads are exactly the items, in order. -/
theorem parse_annos_fold_roundtrip (items : List Json)
    (hall : ∀ j ∈ items, reparses j = true) (a : AIndex) :
    ∃ a', parse_annos_fold items a = .ok a' ∧
      a'.annotations.map (·.raw) = a.annotations.map (·.raw) ++ items := by
  induction items generalizing a with
  | nil => exact ⟨a, rfl, by simp⟩
  | cons j rest ih =>
    have hj := hall j (by simp)
    unfold reparses at hj
    cases hp : parse_anno j with
    | error e => rw [hp] at hj; simp at hj
    | ok ai =>
      rw [hp] at hj
      simp only [Bool.and_eq_true] at hj
      have hb : put_add a.by_target ai.target ai true =
          .ok (put_add_core a.by_target ai.target ai true) := by
        unfold put_add
        rw [if_pos hj.1]
      have hm : ∃ mv, set_add_mot a.motivations ai.motivation = .ok mv := by
        cases hmot : ai.motivation with
        | none => exact ⟨_, rfl⟩
        | some mj =>
          have hm2 : hashable mj = true := by
            have hx := hj.2
            rw [hmot] at hx
            exact hx
          refine ⟨if some mj ∈ a.motivations then a.motivations
            else a.motivations ++ [some mj], ?_⟩
          simp only [set_add_mot, hm2, if_true]
      obtain ⟨mv, hmv⟩ := hm
      obtain ⟨a', ha', hraws⟩ := ih (fun x hx => hall x (by simp [hx]))
        ⟨a.annotations ++ [ai], put_add_core a.by_target ai.target ai true, mv⟩
      refine ⟨a', ?_, ?_⟩
      · unfold parse_annos_fold
        rw [hp]
        simp only [exc_bind_ok]
        rw [hb]
        simp only [exc_bind_ok]
        rw [hmv]
        simp only [exc_bind_ok]
        exact ha'
      · rw [hraws]
        simp [parse_anno_raw j ai hp]

/-- C1: building a v2 or v3 container from the records of an index and
re-parsing it (fresh index, any fuel) succeeds and yields records in
identical order with identical raw payloads, because the container
serializes the original raw payload of every record. -/
theorem c1_container_roundtrip (fetch : String → Option Json) (fuel : Nat)
    (minfo : MInfo) (mid : Json) (hid : minfo.id = some mid)
    (cid : String) (hcid : cid ≠ "")
    (recs : List AnnoInfo) (addCtx : Bool)
    (hall : ∀ r ∈ recs, reparses r.raw = true) :
    (∃ doc a', create_annotationlist_v2 minfo cid recs addCtx = .ok doc ∧
      parse_annotationlist_v2 fetch fuel doc none = .ok a' ∧
      a'.annotations.map (·.raw) = recs.map (·.raw)) ∧
    (∃ doc a', create_annotationlist_v3 minfo cid recs addCtx = .ok doc ∧
      parse_annotationlist_v3 fetch fuel doc none = .ok a' ∧
      a'.annotations.map (·.raw) = recs.map (·.raw)) := by
  have hall' : ∀ j ∈ recs.map (·.raw), reparses j = true := by
    intro j hj
    obtain ⟨r, hr, rfl⟩ := List.mem_map.mp hj
    exact hall r hr
  obtain ⟨a', hfold, hraws⟩ :=
    parse_annos_fold_roundtrip (recs.map (·.raw)) hall' AIndex.empty
  have hraws' : a'.annotations.map (·.raw) = recs.map (·.raw) := by
    rw [hraws]; simp [AIndex.empty]
  constructor
  · cases addCtx with
    | false =>
      refine ⟨.obj [("@type", .str "sc:AnnotationList"), ("@id", .str cid),
        ("within", mid), ("resources", .arr (recs.map (·.raw)))], a', ?_, ?_,
        hraws'⟩
      · simp [create_annotationlist_v2, getMId, hid]
      · unfold parse_annotationlist_v2
        simp [asObj, olookup, hasKey, truthyOpt, truthy, hcid, AIndex.empty]
        exact hfold
    | true =>
      refine ⟨.obj [("@type", .str "sc:AnnotationList"), ("@id", .str cid),
        ("within", mid),
        ("@context", .str "http://iiif.io/api/presentation/2/context.json"),
        ("resources", .arr (recs.map (·.raw)))], a', ?_, ?_, hraws'⟩
      · simp [create_annotationlist_v2, getMId, hid]
      · unfold parse_annotationlist_v2
        simp [asObj, olookup, hasKey, truthyOpt, truthy, hcid, AIndex.empty]
        exact hfold
  · cases addCtx with
    | false =>
      refine ⟨.obj [("type", .str "AnnotationPage"), ("id", .str cid),
        ("partOf", mid), ("items", .arr (recs.map (·.raw)))], a', ?_, ?_,
        hraws'⟩
      · simp [create_annotationlist_v3, getMId, hid]
      · unfold parse_annotationlist_v3
        simp [asObj, olookup, hasKey, truthyOpt, truthy, hcid, AIndex.empty]
        exact hfold
    | true =>
      refine ⟨.obj [("type", .str "AnnotationPage"), ("id", .str cid),
        ("partOf", mid),
        ("@context", .str "http://iiif.io/api/presentation/3/context.json"),
        ("items", .arr (recs.map (·.raw)))], a', ?_, ?_, hraws'⟩
      · simp [create_annotationlist_v3, getMId, hid]
      · unfold parse_annotationlist_v3
        simp [asObj, olookup, hasKey, truthyOpt, truthy, hcid, AIndex.empty]
        exact hfold

/-- C1 witness: the round trip at the concrete one-record index. -/
theorem c1_container_roundtrip_witness :
    ∃ doc a', create_annotationlist_v3 exMinfo3 "http://ex/L" [exRec2]
        true = .ok doc ∧
      parse_annotationlist_v3 noFetch 0 doc none = .ok a' ∧
      a'.annotations.map (·.raw) = [exRec2].map (·.raw) :=
  (c1_container_roundtrip noFetch 0 exMinfo3 (.str "http://ex/newman") rfl
    "http://ex/L" (by decide) [exRec2] true (by decide)).2

/-! Claim C8: missing ids are fatal. -/

/-- C8: a missing (or falsy) id at any level — annotation, container,
manifest, or canvas — makes the enclosing parse return the
level-specific missing-id error; since every parser returns `Except`, an
erroneous parse returns no index or manifest at all, so no partial
result reaches the caller. -/
theorem c8_missing_id_fatal :
    (∀ kvs, truthyOpt (olookup kvs "@id") = false →
      parse_annotation_v2 (.obj kvs) = .error .annoMissingId) ∧
    (∀ kvs, truthyOpt (olookup kvs "id") = false →
      parse_annotation_v3 (.obj kvs) = .error .annoMissingId) ∧
    (∀ fetch fuel kvs seed, truthyOpt (olookup kvs "@id") = false →
      parse_annotationlist_v2 fetch fuel (.obj kvs) seed =
        .error (.listMissingId 2)) ∧
    (∀ fetch fuel kvs seed, truthyOpt (olookup kvs "id") = false →
      parse_annotationlist_v3 fetch fuel (.obj kvs) seed =
        .error (.listMissingId 3)) ∧
    (∀ fetch fuel kvs minfo opts,
      olookup kvs "@type" = some (.str "sc:Manifest") →
      truthyOpt (olookup kvs "@id") = false →
      parse_manifest_v2 fetch fuel (.obj kvs) minfo opts =
        .error (.manifMissingId 2)) ∧
    (∀ fetch fuel kvs minfo opts,
      olookup kvs "type" = some (.str "Manifest") →
      truthyOpt (olookup kvs "id") = false →
      parse_manifest_v3 fetch fuel (.obj kvs) minfo opts =
        .error (.manifMissingId 3)) ∧
    (∀ fetch fuel opts minfo st kvs, truthyOpt (olookup kvs "@id") = false →
      process_canvas_v2 fetch fuel opts minfo st (.obj kvs) =
        .error (.canvasMissingId 2)) ∧
    (∀ fetch fuel opts minfo st kvs, truthyOpt (olookup kvs "id") = false →
      process_canvas_v3 fetch fuel opts minfo st (.obj kvs) =
        .error (.canvasMissingId 3)) := by
  refine ⟨?_, ?_, ?_, ?_, ?_, ?_, ?_, ?_⟩
  · intro kvs h
    unfold parse_annotation_v2
    simp [asObj, h]
  · intro kvs h
    unfold parse_annotation_v3
    simp [asObj, h]
  · intro fetch fuel kvs seed h
    unfold parse_annotationlist_v2
    simp [asObj, h]
  · intro fetch fuel kvs seed h
    unfold parse_annotationlist_v3
    simp [asObj, h]
  · intro fetch fuel kvs minfo opts ht h
    unfold parse_manifest_v2
    simp [asObj, ht, h]
  · intro fetch fuel kvs minfo opts ht h
    unfold parse_manifest_v3
    simp [asObj, ht, h]
  · intro fetch fuel opts minfo st kvs h
    unfold process_canvas_v2
    simp [asObj, h]
  · intro fetch fuel opts minfo st kvs h
    unfold process_canvas_v3
    simp [asObj, h]

/-- C8 witness: the annotation-level conjunct at the empty object. -/
theorem c8_missing_id_fatal_witness :
    parse_annotation_v2 (.obj []) = .error .annoMissingId :=
  c8_missing_id_fatal.1 [] (by decide)

/-! Claim C10: non-sequence annotation containers are skipped in read
mode. -/

/-- C10: in read mode, a canvas whose annotation-container field is
present but not a list is processed without error, adds nothing to the
index and leaves the canvas untouched; only the canvas-ids set grows. -/
theorem c10_nonlist_containers_skipped :
    (∀ fetch fuel (opts : Opts) minfo (st : TravSt) kvs cidj v imgs,
      opts.mode = "read" →
      olookup kvs "@id" = some cidj → truthy cidj = true →
      hashable cidj = true →
      olookup kvs "@type" = some (.str "sc:Canvas") →
      truthyOpt (olookup kvs "label") = true →
      olookup kvs "images" = some (.arr imgs) →
      olookup kvs "otherContent" = some v → (∀ l, v ≠ .arr l) →
      process_canvas_v2 fetch fuel opts minfo st (.obj kvs) =
        .ok (.obj kvs, ⟨st.ainfo,
          if cidj ∈ st.canvas_ids then st.canvas_ids
          else st.canvas_ids ++ [cidj],
          st.annolist_idx, st.saved⟩)) ∧
    (∀ fetch fuel (opts : Opts) minfo (st : TravSt) kvs cidj v imgs,
      opts.mode = "read" →
      olookup kvs "id" = some cidj → truthy cidj = true →
      hashable cidj = true →
      olookup kvs "type" = some (.str "Canvas") →
      truthyOpt (olookup kvs "label") = true →
      olookup kvs "items" = some (.arr imgs) →
      olookup kvs "annotations" = some v → (∀ l, v ≠ .arr l) →
      process_canvas_v3 fetch fuel opts minfo st (.obj kvs) =
        .ok (.obj kvs, ⟨st.ainfo,
          if cidj ∈ st.canvas_ids then st.canvas_ids
          else st.canvas_ids ++ [cidj],
          st.annolist_idx, st.saved⟩)) := by
  constructor
  · intro fetch fuel opts minfo st kvs cidj v imgs hmode hid htr hh htype
      hlabel himgs hoc hnl
    have hidt : truthyOpt (some cidj) = true := htr
    unfold process_canvas_v2
    rcases v with _ | b | n | s | xs | okvs
    · simp [asObj, hid, hidt, htype, hlabel, himgs, hoc, hmode, set_add_id, hh]
    · simp [asObj, hid, hidt, htype, hlabel, himgs, hoc, hmode, set_add_id, hh]
    · simp [asObj, hid, hidt, htype, hlabel, himgs, hoc, hmode, set_add_id, hh]
    · simp [asObj, hid, hidt, htype, hlabel, himgs, hoc, hmode, set_add_id, hh]
    · exact absurd rfl (hnl xs)
    · simp [asObj, hid, hidt, htype, hlabel, himgs, hoc, hmode, set_add_id, hh]
  · intro fetch fuel opts minfo st kvs cidj v imgs hmode hid htr hh htype
      hlabel himgs hoc hnl
    have hidt : truthyOpt (some cidj) = true := htr
    have hmem : cidj ∈ (if cidj ∈ st.canvas_ids then st.canvas_ids
        else st.canvas_ids ++ [cidj]) := by
      split
      · assumption
      · simp
    unfold process_canvas_v3
    rcases v with _ | b | n | s | xs | okvs
    · simp [asObj, hid, hidt, htype, hlabel, himgs, hoc, hmode, set_add_id,
        hh, hmem]
    · simp [asObj, hid, hidt, htype, hlabel, himgs, hoc, hmode, set_add_id,
        hh, hmem]
    · simp [asObj, hid, hidt, htype, hlabel, himgs, hoc, hmode, set_add_id,
        hh, hmem]
    · simp [asObj, hid, hidt, htype, hlabel, himgs, hoc, hmode, set_add_id,
        hh, hmem]
    · exact absurd rfl (hnl xs)
    · simp [asObj, hid, hidt, htype, hlabel, himgs, hoc, hmode, set_add_id,
        hh, hmem]

/-- C10 witness: a v2 canvas whose otherContent is a dict rather than a
list. -/
theorem c10_nonlist_containers_witness :
    process_canvas_v2 noFetch 0 optsRead exMinfo3 ⟨AIndex.empty, [], 0, []⟩
      (.obj [("@id", .str "http://ex/c1"), ("@type", .str "sc:Canvas"),
        ("label", .str "p1"), ("images", .arr []),
        ("otherContent", .obj [("@id", .str "x")])]) =
      .ok (.obj [("@id", .str "http://ex/c1"), ("@type", .str "sc:Canvas"),
        ("label", .str "p1"), ("images", .arr []),
        ("otherContent", .obj [("@id", .str "x")])],
        ⟨AIndex.empty, [.str "http://ex/c1"], 0, []⟩) := by
  have h := (c10_nonlist_containers_skipped.1 noFetch 0 optsRead exMinfo3
    ⟨AIndex.empty, [], 0, []⟩
    [("@id", .str "http://ex/c1"), ("@type", .str "sc:Canvas"),
      ("label", .str "p1"), ("images", .arr []),
      ("otherContent", .obj [("@id", .str "x")])]
    (.str "http://ex/c1") (.obj [("@id", .str "x")]) []
    rfl rfl (by decide) (by decide) rfl (by decide) rfl rfl
    (fun l he => Json.noConfusion he))
  simpa using h

/-! Machinery for claim C9. -/

/-- Splitting a run of consecutive container filenames. -/
theorem annolistNames_append (start n1 n2 : Nat) :
    annolistNames start (n1 + n2) =
      annolistNames start n1 ++ annolistNames (start + n1) n2 := by
  induction n1 generalizing start with
  | zero => simp [annolistNames]
  | succ n ih =>
    have he : (n + 1) + n2 = (n + n2) + 1 := by omega
    rw [he]
    simp only [annolistNames, List.cons_append]
    rw [ih (start + 1)]
    have he2 : start + 1 + n = start + (n + 1) := by omega
    rw [he2]

/-- Composition of two consecutive saved-file runs. -/
theorem SavedNames.comp {a b c : Nat} {ds1 ds2 : List (String × Json)}
    (h1 : SavedNames a ds1 b) (h2 : SavedNames b ds2 c) :
    SavedNames a (ds1 ++ ds2) c := by
  obtain ⟨h1l, h1n⟩ := h1
  obtain ⟨h2l, h2n⟩ := h2
  refine ⟨by simp [h1l, h2l, Nat.add_assoc], ?_⟩
  rw [List.map_append, h1n, h2n, List.length_append, annolistNames_append]
  rw [← h1l]

/-- The empty saved-file run. -/
theorem SavedNames.nil (a : Nat) : SavedNames a [] a :=
  ⟨rfl, rfl⟩

/-- Under any scheme other than `canvas` (that is, the default sequence
scheme), a successful `create_annotationlist_id` returns the filename
`annolist-{idx}.json`. -/
theorem create_id_seq_fn (minfo : MInfo) (cid : Json) (idx : Nat)
    (opts : Opts) (ids : String × String)
    (hscheme : opts.scheme ≠ "canvas")
    (h : create_annotationlist_id minfo cid idx opts = .ok ids) :
    ids.2 = "annolist-" ++ toString idx ++ ".json" := by
  unfold create_annotationlist_id at h
  cases hp : resolve_pfx minfo opts <;> rw [hp] at h
  · simp at h
  · simp only [exc_bind_ok] at h
    rw [if_neg hscheme] at h
    unfold concatUri at h
    split at h
    · simp only [exc_bind_ok] at h
      injection h with h
      rw [← h]
    · simp at h

/-- One v2 insert-mode canvas step extends the saved files by a
consecutively numbered run (empty when the canvas has no matching
annotations, one sequence-scheme file otherwise). -/
theorem process_canvas_v2_saved (fetch : String → Option Json) (fuel : Nat)
    (opts : Opts) (minfo : MInfo) (st : TravSt) (c c' : Json) (st' : TravSt)
    (hmode : opts.mode = "insert") (hinline : opts.reference_mode ≠ "inline")
    (hscheme : opts.scheme ≠ "canvas")
    (h : process_canvas_v2 fetch fuel opts minfo st c = .ok (c', st')) :
    ∃ ds, st'.saved = st.saved ++ ds ∧
      SavedNames st.annolist_idx ds st'.annolist_idx := by
  unfold process_canvas_v2 at h
  cases c <;>
    simp only [asObj, exc_bind_ok, exc_bind_err, exc_pure, exc_throw] at h
  all_goals try exact Except.noConfusion h
  case obj kvs =>
    rw [hmode] at h
    rw [if_neg (show ¬ ("insert" : String) = "read" by decide)] at h
    rw [if_pos (show ("insert" : String) = "insert" from rfl)] at h
    simp only [if_neg hinline] at h
    repeat' split at h
    all_goals try exact Except.noConfusion h
    cases hd : dict_get minfo.annotations.by_target
      ((olookup kvs "@id").getD Json.null) <;> rw [hd] at h
    · exact Except.noConfusion h
    · rename_i pv
      simp only [exc_bind_ok] at h
      cases pv with
      | none =>
        injection h with h
        have h2 : st = st' := congrArg Prod.snd h
        exact ⟨[], by rw [← h2]; simp, by rw [← h2]; exact SavedNames.nil _⟩
      | some pv =>
        cases hc : create_annotationlist_id minfo
          ((olookup kvs "@id").getD Json.null) (st.annolist_idx + 1)
          opts <;> rw [hc] at h
        · exact Except.noConfusion h
        · rename_i ids
          simp only [exc_bind_ok] at h
          cases pv with
          | one w => simp at h
          | list l =>
            simp only [exc_bind_ok, exc_throw, exc_bind_err, exc_pure] at h
            cases hcl : create_annotationlist_v2 minfo ids.1 l true <;>
              rw [hcl] at h
            · exact Except.noConfusion h
            · rename_i annolist
              simp only [exc_bind_ok] at h
              injection h with h
              have h2 : (⟨st.ainfo, st.canvas_ids, st.annolist_idx + 1,
                  st.saved ++ [(ids.2, annolist)]⟩ : TravSt) = st' :=
                congrArg Prod.snd h
              refine ⟨[(ids.2, annolist)], ?_, ?_⟩
              · rw [← h2]
              · rw [← h2]
                refine ⟨rfl, ?_⟩
                simp [annolistNames,
                  create_id_seq_fn minfo _ _ opts ids hscheme hc]

/-- The v3 analogue of `process_canvas_v2_saved`. -/
theorem process_canvas_v3_saved (fetch : String → Option Json) (fuel : Nat)
    (opts : Opts) (minfo : MInfo) (st : TravSt) (c c' : Json) (st' : TravSt)
    (hmode : opts.mode = "insert") (hinline : opts.reference_mode ≠ "inline")
    (hscheme : opts.scheme ≠ "canvas")
    (h : process_canvas_v3 fetch fuel opts minfo st c = .ok (c', st')) :
    ∃ ds, st'.saved = st.saved ++ ds ∧
      SavedNames st.annolist_idx ds st'.annolist_idx := by
  unfold process_canvas_v3 at h
  cases c <;>
    simp only [asObj, exc_bind_ok, exc_bind_err, exc_pure, exc_throw] at h
  all_goals try exact Except.noConfusion h
  case obj kvs =>
    rw [hmode] at h
    simp only [if_neg (show ¬ ("insert" : String) = "read" by decide)] at h
    try simp only [if_pos (show ("insert" : String) = "insert" from rfl)] at h
    simp only [if_neg hinline] at h
    repeat' split at h
    all_goals try exact Except.noConfusion h
    all_goals try exact absurd trivial ‹¬True›
    cases hs0 : set_add_id st.canvas_ids
      ((olookup kvs "id").getD Json.null) <;> rw [hs0] at h
    · exact Except.noConfusion h
    · rename_i cids0
      simp only [exc_bind_ok] at h
      cases hd : dict_get minfo.annotations.by_target
        ((olookup kvs "id").getD Json.null) <;> rw [hd] at h
      · exact Except.noConfusion h
      · rename_i pv
        simp only [exc_bind_ok] at h
        cases pv with
        | none =>
          injection h with h
          have h2 : (⟨st.ainfo, cids0, st.annolist_idx, st.saved⟩ :
              TravSt) = st' := congrArg Prod.snd h
          exact ⟨[], by rw [← h2]; simp, by rw [← h2]; exact SavedNames.nil _⟩
        | some pv =>
          cases hc : create_annotationlist_id minfo
            ((olookup kvs "id").getD Json.null) (st.annolist_idx + 1)
            opts <;> rw [hc] at h
          · exact Except.noConfusion h
          · rename_i ids
            simp only [exc_bind_ok] at h
            cases pv with
            | one w => simp at h
            | list l =>
              simp only [exc_bind_ok, exc_throw, exc_bind_err, exc_pure] at h
              cases hcl : create_annotationlist_v3 minfo ids.1 l true <;>
                rw [hcl] at h
              · exact Except.noConfusion h
              · rename_i annolist
                simp only [exc_bind_ok] at h
                injection h with h
                have h2 : (⟨st.ainfo, cids0, st.annolist_idx + 1,
                    st.saved ++ [(ids.2, annolist)]⟩ : TravSt) = st' :=
                  congrArg Prod.snd h
                refine ⟨[(ids.2, annolist)], ?_, ?_⟩
                · rw [← h2]
                · rw [← h2]
                  refine ⟨rfl, ?_⟩
                  simp [annolistNames,
                    create_id_seq_fn minfo _ _ opts ids hscheme hc]

/-- The v2 canvases loop composes the per-canvas saved runs. -/
theorem process_canvases_v2_saved (fetch : String → Option Json)
    (fuel : Nat) (opts : Opts) (minfo : MInfo)
    (hmode : opts.mode = "insert") (hinline : opts.reference_mode ≠ "inline")
    (hscheme : opts.scheme ≠ "canvas") :
    ∀ (cs : List Json) (st : TravSt) (cs' : List Json) (st'' : TravSt),
      process_canvases_v2 fetch fuel opts minfo cs st = .ok (cs', st'') →
      ∃ ds, st''.saved = st.saved ++ ds ∧
        SavedNames st.annolist_idx ds st''.annolist_idx := by
  intro cs
  induction cs with
  | nil =>
    intro st cs' st'' h
    unfold process_canvases_v2 at h
    injection h with h
    have h2 : st = st'' := congrArg Prod.snd h
    exact ⟨[], by rw [← h2]; simp, by rw [← h2]; exact SavedNames.nil _⟩
  | cons c rest ih =>
    intro st cs' st'' h
    unfold process_canvases_v2 at h
    cases hc : process_canvas_v2 fetch fuel opts minfo st c <;> rw [hc] at h
    · exact Except.noConfusion h
    · rename_i p
      obtain ⟨c', st1⟩ := p
      simp only [exc_bind_ok] at h
      cases hr : process_canvases_v2 fetch fuel opts minfo rest st1 <;>
        rw [hr] at h
      · exact Except.noConfusion h
      · rename_i q
        obtain ⟨cs1, st2⟩ := q
        simp only [exc_bind_ok] at h
        injection h with h
        have h2 : st2 = st'' := congrArg Prod.snd h
        obtain ⟨ds1, hs1, hn1⟩ := process_canvas_v2_saved fetch fuel opts
          minfo st c c' st1 hmode hinline hscheme hc
        obtain ⟨ds2, hs2, hn2⟩ := ih st1 cs1 st2 hr
        exact ⟨ds1 ++ ds2,
          by rw [← h2, hs2, hs1, List.append_assoc],
          by rw [← h2]; exact hn1.comp hn2⟩

/-- The v3 canvases loop composes the per-canvas saved runs. -/
theorem process_canvases_v3_saved (fetch : String → Option Json)
    (fuel : Nat) (opts : Opts) (minfo : MInfo)
    (hmode : opts.mode = "insert") (hinline : opts.reference_mode ≠ "inline")
    (hscheme : opts.scheme ≠ "canvas") :
    ∀ (cs : List Json) (st : TravSt) (cs' : List Json) (st'' : TravSt),
      process_canvases_v3 fetch fuel opts minfo cs st = .ok (cs', st'') →
      ∃ ds, st''.saved = st.saved ++ ds ∧
        SavedNames st.annolist_idx ds st''.annolist_idx := by
  intro cs
  induction cs with
  | nil =>
    intro st cs' st'' h
    unfold process_canvases_v3 at h
    injection h with h
    have h2 : st = st'' := congrArg Prod.snd h
    exact ⟨[], by rw [← h2]; simp, by rw [← h2]; exact SavedNames.nil _⟩
  | cons c rest ih =>
    intro st cs' st'' h
    unfold process_canvases_v3 at h
    cases hc : process_canvas_v3 fetch fuel opts minfo st c <;> rw [hc] at h
    · exact Except.noConfusion h
    · rename_i p
      obtain ⟨c', st1⟩ := p
      simp only [exc_bind_ok] at h
      cases hr : process_canvases_v3 fetch fuel opts minfo rest st1 <;>
        rw [hr] at h
      · exact Except.noConfusion h
      · rename_i q
        obtain ⟨cs1, st2⟩ := q
        simp only [exc_bind_ok] at h
        injection h with h
        have h2 : st2 = st'' := congrArg Prod.snd h
        obtain ⟨ds1, hs1, hn1⟩ := process_canvas_v3_saved fetch fuel opts
          minfo st c c' st1 hmode hinline hscheme hc
        obtain ⟨ds2, hs2, hn2⟩ := ih st1 cs1 st2 hr
        exact ⟨ds1 ++ ds2,
          by rw [← h2, hs2, hs1, List.append_assoc],
          by rw [← h2]; exact hn1.comp hn2⟩

/-- One v2 sequence step keeps the saved-run shape. -/
theorem process_seq_v2_saved (fetch : String → Option Json) (fuel : Nat)
    (opts : Opts) (minfo : MInfo) (st : TravSt) (seq s' : Json)
    (st' : TravSt)
    (hmode : opts.mode = "insert") (hinline : opts.reference_mode ≠ "inline")
    (hscheme : opts.scheme ≠ "canvas")
    (h : process_seq_v2 fetch fuel opts minfo st seq = .ok (s', st')) :
    ∃ ds, st'.saved = st.saved ++ ds ∧
      SavedNames st.annolist_idx ds st'.annolist_idx := by
  unfold process_seq_v2 at h
  cases seq <;>
    simp only [asObj, exc_bind_ok, exc_bind_err, exc_pure, exc_throw] at h
  all_goals try exact Except.noConfusion h
  case obj skvs =>
    repeat' split at h
    all_goals try exact Except.noConfusion h
    rename_i c cs _
    cases hc : process_canvases_v2 fetch fuel opts minfo (c :: cs) st <;>
      rw [hc] at h
    · exact Except.noConfusion h
    · rename_i p
      obtain ⟨cs', st2⟩ := p
      simp only [exc_bind_ok] at h
      injection h with h
      have h2 : st2 = st' := congrArg Prod.snd h
      obtain ⟨ds, hs, hn⟩ := process_canvases_v2_saved fetch fuel opts minfo
        hmode hinline hscheme (c :: cs) st cs' st2 hc
      exact ⟨ds, by rw [← h2]; exact hs, by rw [← h2]; exact hn⟩

/-- The v2 sequences loop composes the per-sequence saved runs. -/
theorem process_seqs_v2_saved (fetch : String → Option Json) (fuel : Nat)
    (opts : Opts) (minfo : MInfo)
    (hmode : opts.mode = "insert") (hinline : opts.reference_mode ≠ "inline")
    (hscheme : opts.scheme ≠ "canvas") :
    ∀ (ss : List Json) (st : TravSt) (ss' : List Json) (st'' : TravSt),
      process_seqs_v2 fetch fuel opts minfo ss st = .ok (ss', st'') →
      ∃ ds, st''.saved = st.saved ++ ds ∧
        SavedNames st.annolist_idx ds st''.annolist_idx := by
  intro ss
  induction ss with
  | nil =>
    intro st ss' st'' h
    unfold process_seqs_v2 at h
    injection h with h
    have h2 : st = st'' := congrArg Prod.snd h
    exact ⟨[], by rw [← h2]; simp, by rw [← h2]; exact SavedNames.nil _⟩
  | cons s rest ih =>
    intro st ss' st'' h
    unfold process_seqs_v2 at h
    cases hc : process_seq_v2 fetch fuel opts minfo st s <;> rw [hc] at h
    · exact Except.noConfusion h
    · rename_i p
      obtain ⟨s', st1⟩ := p
      simp only [exc_bind_ok] at h
      cases hr : process_seqs_v2 fetch fuel opts minfo rest st1 <;>
        rw [hr] at h
      · exact Except.noConfusion h
      · rename_i q
        obtain ⟨ss1, st2⟩ := q
        simp only [exc_bind_ok] at h
        injection h with h
        have h2 : st2 = st'' := congrArg Prod.snd h
        obtain ⟨ds1, hs1, hn1⟩ := process_seq_v2_saved fetch fuel opts
          minfo st s s' st1 hmode hinline hscheme hc
        obtain ⟨ds2, hs2, hn2⟩ := ih st1 ss1 st2 hr
        exact ⟨ds1 ++ ds2,
          by rw [← h2, hs2, hs1, List.append_assoc],
          by rw [← h2]; exact hn1.comp hn2⟩

/-- During a v2 insertion (default sequence scheme, reference mode), the
files saved by the traversal are consecutively numbered from 1. -/
theorem parse_manifest_v2_saved_names (fetch : String → Option Json)
    (fuel : Nat) (kvs : List (String × Json)) (minfo : MInfo) (opts : Opts)
    (out : MInfo × List (String × Json))
    (hmode : opts.mode = "insert") (hinline : opts.reference_mode ≠ "inline")
    (hscheme : opts.scheme ≠ "canvas")
    (h : parse_manifest_v2 fetch fuel (.obj kvs) minfo opts = .ok out) :
    out.2.map Prod.fst = annolistNames 0 out.2.length := by
  unfold parse_manifest_v2 at h
  simp only [asObj, exc_bind_ok] at h
  rw [hmode] at h
  simp only [if_neg (show ¬ ("insert" : String) = "read" by decide)] at h
  try simp only [if_pos (show ("insert" : String) = "insert" from rfl)] at h
  repeat' split at h
  all_goals try exact Except.noConfusion h
  all_goals try exact absurd trivial ‹¬True›
  rename_i c cs heq htrue
  simp only [exc_pure, exc_bind_ok] at h
  cases hs : process_seqs_v2 fetch fuel opts minfo (c :: cs)
    ⟨minfo.annotations, [], 0, []⟩ <;> rw [hs] at h
  · exact Except.noConfusion h
  · rename_i p
    simp only [exc_bind_ok] at h
    cases hg : getMId minfo <;> rw [hg] at h
    · exact Except.noConfusion h
    · simp only [exc_bind_ok, exc_pure] at h
      injection h with h
      have h2 : p.2.saved = out.2 := congrArg Prod.snd h
      obtain ⟨ds, hds, hlen, hnames⟩ := process_seqs_v2_saved fetch fuel
        opts minfo hmode hinline hscheme (c :: cs)
        ⟨minfo.annotations, [], 0, []⟩ p.1 p.2 hs
      rw [← h2, hds]
      simp [hnames]

/-- During a v3 insertion (default sequence scheme, reference mode), the
files saved by the traversal are consecutively numbered from 1. -/
theorem parse_manifest_v3_saved_names (fetch : String → Option Json)
    (fuel : Nat) (kvs : List (String × Json)) (minfo : MInfo) (opts : Opts)
    (out : MInfo × List (String × Json))
    (hmode : opts.mode = "insert") (hinline : opts.reference_mode ≠ "inline")
    (hscheme : opts.scheme ≠ "canvas")
    (h : parse_manifest_v3 fetch fuel (.obj kvs) minfo opts = .ok out) :
    out.2.map Prod.fst = annolistNames 0 out.2.length := by
  unfold parse_manifest_v3 at h
  simp only [asObj, exc_bind_ok] at h
  rw [hmode] at h
  simp only [if_neg (show ¬ ("insert" : String) = "read" by decide)] at h
  try simp only [if_pos (show ("insert" : String) = "insert" from rfl)] at h
  repeat' split at h
  all_goals try exact Except.noConfusion h
  all_goals try exact absurd trivial ‹¬True›
  rename_i canvases heq htrue
  simp only [exc_pure, exc_bind_ok] at h
  cases hs : process_canvases_v3 fetch fuel opts minfo canvases
    ⟨minfo.annotations, [], 0, []⟩ <;> rw [hs] at h
  · exact Except.noConfusion h
  · rename_i p
    simp only [exc_bind_ok] at h
    cases hg : getMId minfo <;> rw [hg] at h
    · exact Except.noConfusion h
    · simp only [exc_bind_ok, exc_pure] at h
      injection h with h
      have h2 : p.2.saved = out.2 := congrArg Prod.snd h
      obtain ⟨ds, hds, hlen, hnames⟩ := process_canvases_v3_saved fetch fuel
        opts minfo hmode hinline hscheme canvases
        ⟨minfo.annotations, [], 0, []⟩ p.1 p.2 hs
      rw [← h2, hds]
      simp [hnames]

/-- The claimed prefix rule resolves the prefix. -/
theorem resolve_pfx_of_pfxIs (minfo : MInfo) (opts : Opts) (p : String)
    (h : PfxIs minfo opts p) : resolve_pfx minfo opts = .ok (.str p) := by
  rcases h with ⟨s, hu, hs, rfl⟩ | ⟨hu, hid⟩
  · simp [resolve_pfx, hu, hs]
  · rcases hu with hu | hu <;> simp [resolve_pfx, hu, getMId, hid]

/-! Claim C9: container identifier and filename policy. -/

/-- C9: under the canvas naming scheme the filename is the last path
segment of the canvas id followed by `-annolist.json`; under any other
scheme (the default sequence scheme) it is `annolist-{idx}.json`; the
URI is always prefix, slash, filename with the prefix resolved from the
configured URL prefix or, when unconfigured, the manifest id; and during
insertion with the sequence scheme the files a manifest traversal saves
are numbered consecutively from 1, one per canvas that receives a new
container, in traversal order. -/
theorem c9_container_identifier :
    (∀ minfo opts p cs idx, opts.scheme = "canvas" → PfxIs minfo opts p →
      create_annotationlist_id minfo (.str cs) idx opts =
        .ok (p ++ "/" ++ (lastSeg cs ++ "-annolist.json"),
          lastSeg cs ++ "-annolist.json")) ∧
    (∀ minfo opts p cid idx, opts.scheme ≠ "canvas" → PfxIs minfo opts p →
      create_annotationlist_id minfo cid idx opts =
        .ok (p ++ "/" ++ ("annolist-" ++ toString idx ++ ".json"),
          "annolist-" ++ toString idx ++ ".json")) ∧
    (∀ fetch fuel kvs minfo opts out, opts.mode = "insert" →
      opts.reference_mode ≠ "inline" → opts.scheme ≠ "canvas" →
      parse_manifest_v2 fetch fuel (.obj kvs) minfo opts = .ok out →
      out.2.map Prod.fst = annolistNames 0 out.2.length) ∧
    (∀ fetch fuel kvs minfo opts out, opts.mode = "insert" →
      opts.reference_mode ≠ "inline" → opts.scheme ≠ "canvas" →
      parse_manifest_v3 fetch fuel (.obj kvs) minfo opts = .ok out →
      out.2.map Prod.fst = annolistNames 0 out.2.length) := by
  refine ⟨?_, ?_,
    fun fetch fuel kvs minfo opts out hm hi hs h =>
      parse_manifest_v2_saved_names fetch fuel kvs minfo opts out hm hi hs h,
    fun fetch fuel kvs minfo opts out hm hi hs h =>
      parse_manifest_v3_saved_names fetch fuel kvs minfo opts out hm hi hs h⟩
  · intro minfo opts p cs idx hscheme hpfx
    unfold create_annotationlist_id
    rw [resolve_pfx_of_pfxIs minfo opts p hpfx]
    simp [hscheme, concatUri]
  · intro minfo opts p cid idx hscheme hpfx
    unfold create_annotationlist_id
    rw [resolve_pfx_of_pfxIs minfo opts p hpfx]
    simp [hscheme, concatUri]

/-- C9 witness: the default sequence scheme at index 1 with the prefix
taken from the manifest id. -/
theorem c9_container_identifier_witness :
    create_annotationlist_id exMinfo3 (.str "http://ex/c1") 1 optsInsert =
      .ok ("http://ex/newman" ++ "/" ++ ("annolist-" ++ toString 1 ++
        ".json"), "annolist-" ++ toString 1 ++ ".json") :=
  c9_container_identifier.2.1 exMinfo3 optsInsert "http://ex/newman"
    (.str "http://ex/c1") 1 (by decide) (Or.inr ⟨Or.inl rfl, rfl⟩)

/-! Machinery for claim C5. -/

/-- A successful by-target dict lookup is the pure lookup. -/
theorem dict_get_ok (bt : List (Json × PutVal)) (k : Json)
    (v : Option PutVal) (h : dict_get bt k = .ok v) : btGet bt k = v := by
  unfold dict_get at h
  split at h
  · exact Except.ok.inj h
  · exact Except.noConfusion h

/-- Peeling one successful bind. -/
theorem exc_bind_ok_inv {α β : Type} {m : Except Err α}
    {f : α → Except Err β} {out : β} (h : (m >>= f) = .ok out) :
    ∃ a, m = .ok a ∧ f a = .ok out := by
  cases m with
  | error e => simp at h
  | ok a => exact ⟨a, rfl, by simpa using h⟩

/-- One v2 insert-mode canvas step relates input and output canvas by
`CRel`. -/
theorem process_canvas_v2_insert_rel (fetch : String → Option Json)
    (fuel : Nat) (opts : Opts) (minfo : MInfo) (st : TravSt) (c c' : Json)
    (st' : TravSt) (hmode : opts.mode = "insert")
    (h : process_canvas_v2 fetch fuel opts minfo st c = .ok (c', st')) :
    CRel minfo.annotations.by_target "otherContent" "@id" c c' := by
  unfold process_canvas_v2 at h
  cases c <;>
    simp only [asObj, exc_bind_ok, exc_bind_err, exc_pure, exc_throw] at h
  all_goals try exact Except.noConfusion h
  case obj kvs =>
    rw [hmode] at h
    simp only [if_neg (show ¬ ("insert" : String) = "read" by decide)] at h
    try simp only [if_pos (show ("insert" : String) = "insert" from rfl)] at h
    repeat' split at h
    all_goals try exact Except.noConfusion h
    all_goals try exact absurd trivial ‹¬True›
    all_goals obtain ⟨val, hd, h⟩ := exc_bind_ok_inv h
    all_goals have hbt := dict_get_ok _ _ _ hd
    all_goals cases val with
      | none =>
        injection h with h
        exact ⟨kvs, rfl, fun _ => (congrArg Prod.fst h).symm,
          fun hne => absurd hbt hne⟩
      | some pv =>
        obtain ⟨ids, hi1, h⟩ := exc_bind_ok_inv h
        obtain ⟨annos, hi2, h⟩ := exc_bind_ok_inv h
        obtain ⟨annolist, hi3, h⟩ := exc_bind_ok_inv h
        injection h with h
        exact ⟨kvs, rfl,
          fun hnone => Option.noConfusion (hbt.symm.trans hnone),
          fun _ => ⟨_, (congrArg Prod.fst h).symm⟩⟩

/-- One v3 insert-mode canvas step relates input and output canvas by
`CRel` over the `annotations` field. -/
theorem process_canvas_v3_insert_rel (fetch : String → Option Json)
    (fuel : Nat) (opts : Opts) (minfo : MInfo) (st : TravSt) (c c' : Json)
    (st' : TravSt) (hmode : opts.mode = "insert")
    (h : process_canvas_v3 fetch fuel opts minfo st c = .ok (c', st')) :
    CRel minfo.annotations.by_target "annotations" "id" c c' := by
  unfold process_canvas_v3 at h
  cases c <;>
    simp only [asObj, exc_bind_ok, exc_bind_err, exc_pure, exc_throw] at h
  all_goals try exact Except.noConfusion h
  case obj kvs =>
    rw [hmode] at h
    simp only [if_neg (show ¬ ("insert" : String) = "read" by decide)] at h
    try simp only [if_pos (show ("insert" : String) = "insert" from rfl)] at h
    repeat' split at h
    all_goals try exact Except.noConfusion h
    all_goals try exact absurd trivial ‹¬True›
    all_goals obtain ⟨cids0, hs0, h⟩ := exc_bind_ok_inv h
    all_goals obtain ⟨val, hd, h⟩ := exc_bind_ok_inv h
    all_goals have hbt := dict_get_ok _ _ _ hd
    all_goals cases val with
      | none =>
        injection h with h
        exact ⟨kvs, rfl, fun _ => (congrArg Prod.fst h).symm,
          fun hne => absurd hbt hne⟩
      | some pv =>
        obtain ⟨ids, hi1, h⟩ := exc_bind_ok_inv h
        obtain ⟨annos, hi2, h⟩ := exc_bind_ok_inv h
        obtain ⟨annolist, hi3, h⟩ := exc_bind_ok_inv h
        injection h with h
        exact ⟨kvs, rfl,
          fun hnone => Option.noConfusion (hbt.symm.trans hnone),
          fun _ => ⟨_, (congrArg Prod.fst h).symm⟩⟩

/-- The v2 canvases loop relates input and output canvas lists pointwise. -/
theorem process_canvases_v2_rel (fetch : String → Option Json) (fuel : Nat)
    (opts : Opts) (minfo : MInfo) (hmode : opts.mode = "insert") :
    ∀ (cs : List Json) (st : TravSt) (cs' : List Json) (st'' : TravSt),
      process_canvases_v2 fetch fuel opts minfo cs st = .ok (cs', st'') →
      List.Forall₂ (CRel minfo.annotations.by_target "otherContent" "@id")
        cs cs' := by
  intro cs
  induction cs with
  | nil =>
    intro st cs' st'' h
    unfold process_canvases_v2 at h
    injection h with h
    have h1 : ([] : List Json) = cs' := congrArg Prod.fst h
    rw [← h1]
    exact List.Forall₂.nil
  | cons c rest ih =>
    intro st cs' st'' h
    unfold process_canvases_v2 at h
    obtain ⟨p, hc, h⟩ := exc_bind_ok_inv h
    obtain ⟨c1, st1⟩ := p
    obtain ⟨q, hr, h⟩ := exc_bind_ok_inv h
    obtain ⟨cs1, st2⟩ := q
    injection h with h
    have h1 : c1 :: cs1 = cs' := congrArg Prod.fst h
    rw [← h1]
    exact List.Forall₂.cons
      (process_canvas_v2_insert_rel fetch fuel opts minfo st c c1 st1
        hmode hc)
      (ih st1 cs1 st2 hr)

/-- The v3 canvases loop relates input and output canvas lists pointwise. -/
theorem process_canvases_v3_rel (fetch : String → Option Json) (fuel : Nat)
    (opts : Opts) (minfo : MInfo) (hmode : opts.mode = "insert") :
    ∀ (cs : List Json) (st : TravSt) (cs' : List Json) (st'' : TravSt),
      process_canvases_v3 fetch fuel opts minfo cs st = .ok (cs', st'') →
      List.Forall₂ (CRel minfo.annotations.by_target "annotations" "id")
        cs cs' := by
  intro cs
  induction cs with
  | nil =>
    intro st cs' st'' h
    unfold process_canvases_v3 at h
    injection h with h
    have h1 : ([] : List Json) = cs' := congrArg Prod.fst h
    rw [← h1]
    exact List.Forall₂.nil
  | cons c rest ih =>
    intro st cs' st'' h
    unfold process_canvases_v3 at h
    obtain ⟨p, hc, h⟩ := exc_bind_ok_inv h
    obtain ⟨c1, st1⟩ := p
    obtain ⟨q, hr, h⟩ := exc_bind_ok_inv h
    obtain ⟨cs1, st2⟩ := q
    injection h with h
    have h1 : c1 :: cs1 = cs' := congrArg Prod.fst h
    rw [← h1]
    exact List.Forall₂.cons
      (process_canvas_v3_insert_rel fetch fuel opts minfo st c c1 st1
        hmode hc)
      (ih st1 cs1 st2 hr)

/-- One v2 insert-mode sequence step satisfies `SeqRel`. -/
theorem process_seq_v2_insert_rel (fetch : String → Option Json) (fuel : Nat)
    (opts : Opts) (minfo : MInfo) (st : TravSt) (seq s' : Json) (st' : TravSt)
    (hmode : opts.mode = "insert")
    (h : process_seq_v2 fetch fuel opts minfo st seq = .ok (s', st')) :
    SeqRel minfo.annotations.by_target seq s' := by
  unfold process_seq_v2 at h
  cases seq <;>
    simp only [asObj, exc_bind_ok, exc_bind_err, exc_pure, exc_throw] at h
  all_goals try exact Except.noConfusion h
  case obj skvs =>
    repeat' split at h
    all_goals try exact Except.noConfusion h
    rename_i c cs heq
    obtain ⟨p, hc, h⟩ := exc_bind_ok_inv h
    obtain ⟨cs1, st1⟩ := p
    injection h with h
    have h1 : Json.obj (objSetKvs skvs "canvases" (.arr cs1)) = s' :=
      congrArg Prod.fst h
    exact ⟨skvs, c :: cs, cs1, rfl, heq, h1.symm,
      process_canvases_v2_rel fetch fuel opts minfo hmode (c :: cs) st
        cs1 st1 hc⟩

/-- The v2 sequences loop relates input and output pointwise. -/
theorem process_seqs_v2_rel (fetch : String → Option Json) (fuel : Nat)
    (opts : Opts) (minfo : MInfo) (hmode : opts.mode = "insert") :
    ∀ (ss : List Json) (st : TravSt) (ss' : List Json) (st'' : TravSt),
      process_seqs_v2 fetch fuel opts minfo ss st = .ok (ss', st'') →
      List.Forall₂ (SeqRel minfo.annotations.by_target) ss ss' := by
  intro ss
  induction ss with
  | nil =>
    intro st ss' st'' h
    unfold process_seqs_v2 at h
    injection h with h
    have h1 : ([] : List Json) = ss' := congrArg Prod.fst h
    rw [← h1]
    exact List.Forall₂.nil
  | cons s rest ih =>
    intro st ss' st'' h
    unfold process_seqs_v2 at h
    obtain ⟨p, hc, h⟩ := exc_bind_ok_inv h
    obtain ⟨s1, st1⟩ := p
    obtain ⟨q, hr, h⟩ := exc_bind_ok_inv h
    obtain ⟨ss1, st2⟩ := q
    injection h with h
    have h1 : s1 :: ss1 = ss' := congrArg Prod.fst h
    rw [← h1]
    exact List.Forall₂.cons
      (process_seq_v2_insert_rel fetch fuel opts minfo st s s1 st1 hmode hc)
      (ih st1 ss1 st2 hr)

/-! Claim C5: the insert-mode frame effect on canvases. -/

/-- C5: during insertion (v2 and v3), a validated canvas whose id has no
by-target bucket is processed without any error — the canvas step
returns ok with the canvas untouched and the index, counter and saved
trace unchanged (in v3 only the canvas-ids set grows, as the source adds
the id before the mode branch) — and across a whole manifest insertion
every canvas without a bucket is returned untouched while only canvases
with a bucket have their annotation-container field (`otherContent` for
v2, `annotations` for v3) reassigned: the output canvas is the input
canvas with exactly that one dict entry replaced. -/
theorem c5_insert_untouched_canvases :
    (∀ fetch fuel (opts : Opts) minfo (st : TravSt) kvs cidj imgs,
      opts.mode = "insert" →
      olookup kvs "@id" = some cidj → truthy cidj = true →
      hashable cidj = true →
      olookup kvs "@type" = some (.str "sc:Canvas") →
      truthyOpt (olookup kvs "label") = true →
      olookup kvs "images" = some (.arr imgs) →
      btGet minfo.annotations.by_target cidj = none →
      process_canvas_v2 fetch fuel opts minfo st (.obj kvs) =
        .ok (.obj kvs, st)) ∧
    (∀ fetch fuel (opts : Opts) minfo (st : TravSt) kvs cidj imgs,
      opts.mode = "insert" →
      olookup kvs "id" = some cidj → truthy cidj = true →
      hashable cidj = true →
      olookup kvs "type" = some (.str "Canvas") →
      truthyOpt (olookup kvs "label") = true →
      olookup kvs "items" = some (.arr imgs) →
      btGet minfo.annotations.by_target cidj = none →
      process_canvas_v3 fetch fuel opts minfo st (.obj kvs) =
        .ok (.obj kvs, ⟨st.ainfo,
          if cidj ∈ st.canvas_ids then st.canvas_ids
          else st.canvas_ids ++ [cidj],
          st.annolist_idx, st.saved⟩)) ∧
    (∀ fetch fuel kvs minfo (opts : Opts) out, opts.mode = "insert" →
      parse_manifest_v2 fetch fuel (.obj kvs) minfo opts = .ok out →
      ∃ seqs seqs' mid, olookup kvs "sequences" = some (.arr seqs) ∧
        out.1.manifest = .obj (objSetKvs (objSetKvs kvs "sequences"
          (.arr seqs')) "@id" mid) ∧
        List.Forall₂ (SeqRel minfo.annotations.by_target) seqs seqs') ∧
    (∀ fetch fuel kvs minfo (opts : Opts) out, opts.mode = "insert" →
      parse_manifest_v3 fetch fuel (.obj kvs) minfo opts = .ok out →
      ∃ canvases canvases' mid, olookup kvs "items" = some (.arr canvases) ∧
        out.1.manifest = .obj (objSetKvs (objSetKvs kvs "items"
          (.arr canvases')) "id" mid) ∧
        List.Forall₂ (CRel minfo.annotations.by_target "annotations" "id")
          canvases canvases') := by
  refine ⟨?_, ?_, ?_, ?_⟩
  · intro fetch fuel opts minfo st kvs cidj imgs hmode hid htr hh htype
      hlabel himgs hbt
    have hidt : truthyOpt (some cidj) = true := htr
    unfold process_canvas_v2
    simp [asObj, hid, hidt, htype, hlabel, himgs, hmode, dict_get, hh, hbt]
  · intro fetch fuel opts minfo st kvs cidj imgs hmode hid htr hh htype
      hlabel himgs hbt
    have hidt : truthyOpt (some cidj) = true := htr
    unfold process_canvas_v3
    simp [asObj, hid, hidt, htype, hlabel, himgs, hmode, set_add_id,
      dict_get, hh, hbt]
  · intro fetch fuel kvs minfo opts out hmode h
    unfold parse_manifest_v2 at h
    simp only [asObj, exc_bind_ok] at h
    rw [hmode] at h
    simp only [if_neg (show ¬ ("insert" : String) = "read" by decide)] at h
    try simp only [if_pos (show ("insert" : String) = "insert" from rfl)] at h
    repeat' split at h
    all_goals try exact Except.noConfusion h
    all_goals try exact absurd trivial ‹¬True›
    rename_i c cs heq htrue
    simp only [exc_pure, exc_bind_ok] at h
    obtain ⟨p, hs, h⟩ := exc_bind_ok_inv h
    obtain ⟨seqs', st'⟩ := p
    obtain ⟨mid, hg, h⟩ := exc_bind_ok_inv h
    injection h with h
    have h1 := congrArg (fun x => x.1.manifest) h
    exact ⟨c :: cs, seqs', mid, heq, h1.symm,
      process_seqs_v2_rel fetch fuel opts minfo hmode (c :: cs)
        ⟨minfo.annotations, [], 0, []⟩ seqs' st' hs⟩
  · intro fetch fuel kvs minfo opts out hmode h
    unfold parse_manifest_v3 at h
    simp only [asObj, exc_bind_ok] at h
    rw [hmode] at h
    simp only [if_neg (show ¬ ("insert" : String) = "read" by decide)] at h
    try simp only [if_pos (show ("insert" : String) = "insert" from rfl)] at h
    repeat' split at h
    all_goals try exact Except.noConfusion h
    all_goals try exact absurd trivial ‹¬True›
    rename_i canvases heq htrue
    simp only [exc_pure, exc_bind_ok] at h
    obtain ⟨p, hs, h⟩ := exc_bind_ok_inv h
    obtain ⟨canvases', st'⟩ := p
    obtain ⟨mid, hg, h⟩ := exc_bind_ok_inv h
    injection h with h
    have h1 := congrArg (fun x => x.1.manifest) h
    exact ⟨canvases, canvases', mid, heq, h1.symm,
      process_canvases_v3_rel fetch fuel opts minfo hmode canvases
        ⟨minfo.annotations, [], 0, []⟩ canvases' st' hs⟩

/-- C5 witness: the unmatched-canvas no-error conjunct at a concrete v2
canvas whose id has no bucket, and the v3 manifest-level conjunct at a
concrete insertion whose manifest holds one matched and one unmatched
canvas. -/
theorem c5_insert_untouched_witness :
    (process_canvas_v2 noFetch 0 optsInsert exMinfo3
      ⟨AIndex.empty, [], 0, []⟩ exCanvas2b =
      .ok (exCanvas2b, ⟨AIndex.empty, [], 0, []⟩)) ∧
    (∃ out, parse_manifest_v3 noFetch 0 exManif3b exMinfo3b optsInsert =
      .ok out ∧
    ∃ canvases canvases' mid,
      olookup [("@context",
          Json.str "http://iiif.io/api/presentation/3/context.json"),
        ("id", .str "http://ex/man"), ("type", .str "Manifest"),
        ("label", .str "M"), ("items", .arr [exCanvas3, exCanvas3b])]
          "items" = some (.arr canvases) ∧
      out.1.manifest = .obj (objSetKvs (objSetKvs [("@context",
          Json.str "http://iiif.io/api/presentation/3/context.json"),
        ("id", .str "http://ex/man"), ("type", .str "Manifest"),
        ("label", .str "M"), ("items", .arr [exCanvas3, exCanvas3b])]
          "items" (.arr canvases')) "id" mid) ∧
      List.Forall₂ (CRel exMinfo3b.annotations.by_target "annotations"
        "id") canvases canvases') :=
  ⟨c5_insert_untouched_canvases.1 noFetch 0 optsInsert exMinfo3
    ⟨AIndex.empty, [], 0, []⟩
    [("@id", .str "http://ex/c2"), ("@type", .str "sc:Canvas"),
      ("label", .str "p2"), ("images", .arr [])]
    (.str "http://ex/c2") [] rfl rfl (by decide) (by decide) rfl
    (by decide) rfl (by decide),
  ⟨_, rfl, c5_insert_untouched_canvases.2.2.2 noFetch 0
    [("@context", Json.str "http://iiif.io/api/presentation/3/context.json"),
      ("id", .str "http://ex/man"), ("type", .str "Manifest"),
      ("label", .str "M"), ("items", .arr [exCanvas3, exCanvas3b])]
    exMinfo3b optsInsert _ rfl rfl⟩⟩
